import Mathlib

/-!
Shallow embedding of the git-sync edge functions of this repository
(src/supabase/functions/git-sync/index.ts, which contains two concatenated
handler versions, src/unnamed/part_001 and src/unnamed/part_002).
External effects are modelled as explicit oracle records: the GitHub REST
API is a read-only response oracle, the backend (auth lookup and audit-log
insertion) is a second oracle, and the process environment and the HTTP
request are plain records.  Every handler returns, besides its HTTP
response, the list of GitHub API calls it issued and the list of audit-log
rows it inserted, so that frame and audit properties can be stated about
the traces.
-/

/-- Truthiness of an optional string, as JavaScript sees it: an undefined
value and the empty string are falsy, every other string is truthy. -/
def optTruthy : Option String → Bool
  | none => false
  | some s => !(s == "")

/-- Removes the first occurrence of `pat` from `s`; models the JavaScript
call s.replace(pat, ''). -/
def stripFirstL (pat : List Char) : List Char → List Char
  | [] => []
  | c :: rest =>
    if pat.isPrefixOf (c :: rest) then (c :: rest).drop pat.length
    else c :: stripFirstL pat rest

/-- String version of `stripFirstL`. -/
def stripFirst (s pat : String) : String := ⟨stripFirstL pat.data s.data⟩

/-- Substring containment on character lists. -/
def listContains (pat : List Char) : List Char → Bool
  | [] => pat.isEmpty
  | c :: rest => pat.isPrefixOf (c :: rest) || listContains pat rest

/-- `strContains s pat` holds when `pat` occurs inside `s`. -/
def strContains (s pat : String) : Bool := listContains pat.data s.data

/-- The response.ok predicate of the fetch API: HTTP status in 200..299. -/
def httpOk (status : Nat) : Bool := decide (200 ≤ status) && decide (status < 300)

/-- An owner and a repository name extracted from a GitHub URL. -/
structure RepoId where
  owner : String
  repo : String
deriving DecidableEq

/-- A GitHub REST API request, as issued over the wire by the sync code.
The first field of each constructor is the value of the Authorization
header the code attaches to the request. -/
inductive GitHubCall where
  | getRef (auth owner repo branch : String)
  | createRef (auth owner repo branch sha : String)
  | updateRef (auth owner repo branch sha : String) (force : Bool)
  | getRepo (auth owner repo : String)
  | getRepoPath (auth path : String)
deriving DecidableEq

/-- The Authorization header value carried by a GitHub API call. -/
def GitHubCall.auth : GitHubCall → String
  | .getRef a _ _ _ => a
  | .createRef a _ _ _ _ => a
  | .updateRef a _ _ _ _ _ => a
  | .getRepo a _ _ => a
  | .getRepoPath a _ => a

/-- A call that mutates remote repository state: a ref create (POST) or a
ref update (PATCH). -/
def GitHubCall.isMutating : GitHubCall → Bool
  | .createRef _ _ _ _ _ => true
  | .updateRef _ _ _ _ _ _ => true
  | _ => false

/-- A call against the git-refs endpoints: a ref read, create or update. -/
def GitHubCall.isRefCall : GitHubCall → Bool
  | .getRef _ _ _ _ => true
  | .createRef _ _ _ _ _ => true
  | .updateRef _ _ _ _ _ _ => true
  | _ => false

/-- A repository-metadata GET issued with a raw path string. -/
def GitHubCall.isRepoPathGet : GitHubCall → Bool
  | .getRepoPath _ _ => true
  | _ => false

/-- A GitHub API response as far as the sync code inspects it: the HTTP
status, the raw body text used in error messages, the object.sha field of
a parsed ref object and the default_branch field of parsed repository
metadata (each meaningful only for the matching endpoint). -/
structure ApiResp where
  status : Nat
  body : String
  sha : String
  default_branch : String
deriving DecidableEq

/-- The GitHub API modelled as a read-only response oracle, one field per
endpoint the code talks to. -/
structure GitHubWorld where
  refResp : String → String → String → ApiResp
  createResp : String → String → String → String → ApiResp
  updateResp : String → String → String → String → ApiResp
  repoResp : String → String → ApiResp
  repoPathResp : String → ApiResp

/-- The ref JSON object returned by the refs endpoint, keeping the
object.sha field that the callers read. -/
structure RefData where
  sha : String
deriving DecidableEq

/-- The literal github.com/ searched for by both regexes (written as an
explicit character list so proofs can step through it). -/
def ghLit : List Char := ['g', 'i', 't', 'h', 'u', 'b', '.', 'c', 'o', 'm', '/']

/-- The literal .git suffix allowed by the anchored regex. -/
def gitSuffix : List Char := ['.', 'g', 'i', 't']

/-- Tail matcher of the anchored regex used by part_001's validateGitHubUrl
and by index.ts lines 389/481: after the github.com/ literal it takes a
nonempty run without slash as owner, a slash, a nonempty run without dot as
repo, an optional .git, and requires the end of the string, following the
greedy leftmost semantics of the JavaScript engine. -/
def matchTail (t : List Char) : Option (String × String) :=
  let owner := t.takeWhile (· != '/')
  match t.dropWhile (· != '/') with
  | [] => none
  | _ :: u =>
    if owner.isEmpty then none
    else
      let repo := u.takeWhile (· != '.')
      let rest := u.dropWhile (· != '.')
      if repo.isEmpty then none
      else if rest.isEmpty || rest == gitSuffix then some (⟨owner⟩, ⟨repo⟩)
      else none

/-- Tail matcher of the unanchored regex used by index.ts line 12: same as
`matchTail` but with no end-of-string requirement and no .git group. -/
def matchTailLoose (t : List Char) : Option (String × String) :=
  let owner := t.takeWhile (· != '/')
  match t.dropWhile (· != '/') with
  | [] => none
  | _ :: u =>
    if owner.isEmpty then none
    else
      let repo := u.takeWhile (· != '.')
      if repo.isEmpty then none else some (⟨owner⟩, ⟨repo⟩)

/-- Leftmost scan of the subject string for a position where the
github.com/ literal matches and the tail matcher `f` succeeds, as the
JavaScript regex engine does. -/
def scanFor (f : List Char → Option (String × String)) : List Char → Option (String × String)
  | [] => none
  | c :: rest =>
    if ghLit.isPrefixOf (c :: rest) then
      match f ((c :: rest).drop ghLit.length) with
      | some res => some res
      | none => scanFor f rest
    else scanFor f rest

/-- The anchored regex of part_001 line 15 and index.ts lines 389 and 481,
applied to a whole string. -/
def scanGithub (s : List Char) : Option (String × String) := scanFor matchTail s

/-- The unanchored regex of index.ts lines 12 and 13, applied to a whole
string. -/
def scanGithubLoose (s : List Char) : Option (String × String) := scanFor matchTailLoose s

/-- Characters that terminate the host part of a URL authority. -/
def hostEndChar (c : Char) : Bool := c == '/' || c == '?' || c == '#' || c == ':'

/-- Scans for the first :// separator and returns what follows it. -/
def afterSchemeSep : List Char → Option (List Char)
  | [] => none
  | c :: rest =>
    if c == ':' && ['/', '/'].isPrefixOf rest then some (rest.drop 2)
    else afterSchemeSep rest

/-- Models the platform URL constructor's hostname field for URLs of the
shape scheme://host followed by an optional path, query or port, which is
the input space the sync code handles; a string without :// makes the
constructor throw, modelled as none. -/
def urlHostname (url : String) : Option String :=
  match afterSchemeSep url.data with
  | none => none
  | some rest => some ⟨rest.takeWhile (fun c => !hostEndChar c)⟩

/-- part_001 lines 8-28: validateGitHubUrl checks that the URL parses and
its hostname equals github.com, then applies the anchored regex and
returns the captured owner and repo, or null on any failure. -/
def validateGitHubUrl (url : String) : Option RepoId :=
  match urlHostname url with
  | none => none
  | some h =>
    if h == "github.com" then
      match scanGithub url.data with
      | some (o, r) => some ⟨o, r⟩
      | none => none
    else none

/-- index.ts lines 481 and 389-397: the anchored regex applied directly to
a URL with no hostname check, as the second index.ts handler does. -/
def matchDollar (url : String) : Option RepoId :=
  match scanGithub url.data with
  | some (o, r) => some ⟨o, r⟩
  | none => none

/-- Strips one trailing .git from a character list. -/
def stripDotGit (l : List Char) : List Char :=
  if gitSuffix.isSuffixOf l then l.take (l.length - 4) else l

/-- Modelled from the spec's words (section 4.1): the URL shapes the spec
says the parser accepts, namely host equal to github.com and a path of
exactly an owner segment and a repo segment, with an optional .git suffix;
segments are nonempty and contain no slash.  Used only to compare the
spec's description against `validateGitHubUrl`. -/
def specUrlAccepts (url : String) : Bool :=
  match afterSchemeSep url.data with
  | none => false
  | some rest =>
    let host := rest.takeWhile (fun c => !hostEndChar c)
    let path := rest.dropWhile (fun c => !hostEndChar c)
    host == "github.com".data &&
      (match stripDotGit path with
       | '/' :: t =>
         let owner := t.takeWhile (· != '/')
         (match t.dropWhile (· != '/') with
          | '/' :: repo => !owner.isEmpty && !repo.isEmpty && repo.all (· != '/')
          | _ => false)
       | _ => false)

/-- part_001 lines 30-60 (identical to index.ts lines 251-281): GET the
branch ref; a 2xx response yields the ref object, a 404 yields null, any
other status raises an error carrying the response body text. -/
def getGitHubReference (w : GitHubWorld) (owner repo ref token : String) :
    Except String (Option RefData) × List GitHubCall :=
  let response := w.refResp owner repo ref
  let call := GitHubCall.getRef ("Bearer " ++ token) owner repo ref
  if httpOk response.status then (Except.ok (some ⟨response.sha⟩), [call])
  else if response.status = 404 then (Except.ok none, [call])
  else (Except.error ("Failed to get reference: " ++ response.body), [call])

/-- part_001 lines 62-94 (identical to index.ts lines 283-315): POST a new
ref pointing at the given sha; any non-2xx raises an error carrying the
response body text. -/
def createGitHubReference (w : GitHubWorld) (owner repo ref sha token : String) :
    Except String RefData × List GitHubCall :=
  let response := w.createResp owner repo ref sha
  let call := GitHubCall.createRef ("Bearer " ++ token) owner repo ref sha
  if httpOk response.status then (Except.ok ⟨response.sha⟩, [call])
  else (Except.error ("Failed to create reference: " ++ response.body), [call])

/-- part_001 lines 96-135 (identical to index.ts lines 317-357): check
existence via getGitHubReference; if absent, create the ref; if present,
PATCH it with force set to true. -/
def updateGitHubReference (w : GitHubWorld) (owner repo ref sha token : String) :
    Except String RefData × List GitHubCall :=
  match getGitHubReference w owner repo ref token with
  | (Except.error e, t1) => (Except.error e, t1)
  | (Except.ok none, t1) =>
    (match createGitHubReference w owner repo ref sha token with
     | (r, t2) => (r, t1 ++ t2))
  | (Except.ok (some _), t1) =>
    let response := w.updateResp owner repo ref sha
    let call := GitHubCall.updateRef ("Bearer " ++ token) owner repo ref sha true
    if httpOk response.status then (Except.ok ⟨response.sha⟩, t1 ++ [call])
    else (Except.error ("Failed to update reference: " ++ response.body), t1 ++ [call])

/-- part_001 lines 137-163 (identical to index.ts lines 359-385): GET the
repository metadata and return its default_branch field; any non-2xx
raises an error carrying the response body text. -/
def getDefaultBranch (w : GitHubWorld) (owner repo token : String) :
    Except String String × List GitHubCall :=
  let response := w.repoResp owner repo
  let call := GitHubCall.getRepo ("Bearer " ++ token) owner repo
  if httpOk response.status then (Except.ok response.default_branch, [call])
  else (Except.error ("Failed to get repository info: " ++ response.body), [call])

/-- index.ts lines 424-448: GET the repository metadata to verify access,
raising an error on any non-2xx. -/
def verifyRepositoryAccess (w : GitHubWorld) (owner repo token : String) :
    Except String Unit × List GitHubCall :=
  let response := w.repoResp owner repo
  let call := GitHubCall.getRepo ("Bearer " ++ token) owner repo
  if httpOk response.status then (Except.ok (), [call])
  else (Except.error ("Failed to access repository: " ++ response.body), [call])

/-- The shared tail of part_001's performGitSync (lines 174-197) and the
textually identical index.ts lines 399-421: resolve both default branches,
read the source ref (master on pull, custom on push), abort if it is
absent, else update or create the destination ref at the source sha. -/
def syncCore (w : GitHubWorld) (operation : String) (customRepo masterRepo : RepoId)
    (githubToken : String) : Except String Unit × List GitHubCall :=
  match getDefaultBranch w masterRepo.owner masterRepo.repo githubToken with
  | (Except.error e, t1) => (Except.error e, t1)
  | (Except.ok masterDefaultBranch, t1) =>
    match getDefaultBranch w customRepo.owner customRepo.repo githubToken with
    | (Except.error e, t2) => (Except.error e, t1 ++ t2)
    | (Except.ok customDefaultBranch, t2) =>
      if operation == "pull" then
        match getGitHubReference w masterRepo.owner masterRepo.repo masterDefaultBranch githubToken with
        | (Except.error e, t3) => (Except.error e, t1 ++ t2 ++ t3)
        | (Except.ok none, t3) => (Except.error "Master branch reference not found", t1 ++ t2 ++ t3)
        | (Except.ok (some masterRef), t3) =>
          match updateGitHubReference w customRepo.owner customRepo.repo customDefaultBranch
              masterRef.sha githubToken with
          | (Except.error e, t4) => (Except.error e, t1 ++ t2 ++ t3 ++ t4)
          | (Except.ok _, t4) => (Except.ok (), t1 ++ t2 ++ t3 ++ t4)
      else if operation == "push" then
        match getGitHubReference w customRepo.owner customRepo.repo customDefaultBranch githubToken with
        | (Except.error e, t3) => (Except.error e, t1 ++ t2 ++ t3)
        | (Except.ok none, t3) => (Except.error "Custom branch reference not found", t1 ++ t2 ++ t3)
        | (Except.ok (some customRef), t3) =>
          match updateGitHubReference w masterRepo.owner masterRepo.repo masterDefaultBranch
              customRef.sha githubToken with
          | (Except.error e, t4) => (Except.error e, t1 ++ t2 ++ t3 ++ t4)
          | (Except.ok _, t4) => (Except.ok (), t1 ++ t2 ++ t3 ++ t4)
      else (Except.ok (), t1 ++ t2)

/-- part_001 lines 165-197: validate both URLs with validateGitHubUrl,
then run the shared sync tail. -/
def performGitSync (w : GitHubWorld) (operation customUrl masterUrl githubToken : String) :
    Except String Unit × List GitHubCall :=
  match validateGitHubUrl customUrl, validateGitHubUrl masterUrl with
  | some customRepo, some masterRepo => syncCore w operation customRepo masterRepo githubToken
  | _, _ => (Except.error "Invalid repository URLs provided", [])

/-- index.ts lines 387-422: same sync tail, but the URLs are parsed with
the bare anchored regex and no hostname check. -/
def performGitSyncB (w : GitHubWorld) (operation customUrl masterUrl githubToken : String) :
    Except String Unit × List GitHubCall :=
  match matchDollar customUrl, matchDollar masterUrl with
  | some customRepo, some masterRepo => syncCore w operation customRepo masterRepo githubToken
  | _, _ => (Except.error "Invalid repository URLs", [])

/-- index.ts line 9: the hardcoded master repository URL of the first
handler. -/
def MASTER_REPO : String := "https://github.com/imedia765/s-935078.git"

/-- index.ts lines 11-91: the first handler's sync routine.  Both URLs go
through the unanchored regex, the branch name is the constant main on both
sides, the authorization scheme is token, and an operation that is neither
pull nor push does nothing. -/
def performGitSyncA (w : GitHubWorld) (operation customUrl githubToken : String) :
    Except String Unit × List GitHubCall :=
  match scanGithubLoose customUrl.data, scanGithubLoose MASTER_REPO.data with
  | some (customOwner, customRepo), some (masterOwner, masterRepo) =>
    let auth := "token " ++ githubToken
    if operation == "pull" then
      let response := w.refResp masterOwner masterRepo "main"
      let c1 := GitHubCall.getRef auth masterOwner masterRepo "main"
      if httpOk response.status then
        let upd := w.updateResp customOwner customRepo "main" response.sha
        let c2 := GitHubCall.updateRef auth customOwner customRepo "main" response.sha true
        if httpOk upd.status then (Except.ok (), [c1, c2])
        else (Except.error ("Failed to update custom repository: " ++ upd.body), [c1, c2])
      else (Except.error ("Failed to get master branch: " ++ response.body), [c1])
    else if operation == "push" then
      let response := w.refResp customOwner customRepo "main"
      let c1 := GitHubCall.getRef auth customOwner customRepo "main"
      if httpOk response.status then
        let upd := w.updateResp masterOwner masterRepo "main" response.sha
        let c2 := GitHubCall.updateRef auth masterOwner masterRepo "main" response.sha true
        if httpOk upd.status then (Except.ok (), [c1, c2])
        else (Except.error ("Failed to update master repository: " ++ upd.body), [c1, c2])
      else (Except.error ("Failed to get custom branch: " ++ response.body), [c1])
    else (Except.ok (), [])
  | _, _ => (Except.error "Invalid repository URLs", [])

/-- The body fields the handlers destructure from the parsed JSON request
body; a missing field is none. -/
structure ReqBody where
  operation : Option String
  customUrl : Option String
  masterUrl : Option String
deriving DecidableEq

/-- An incoming HTTP request as far as the handlers inspect it: the
method, the Authorization header, and the parse result of req.json()
(none when the body is not valid JSON and the call throws). -/
structure Request where
  method : String
  authHeader : Option String
  body : Option ReqBody
deriving DecidableEq

/-- The process environment variables the handlers read. -/
structure Env where
  supabaseUrl : Option String
  supabaseServiceKey : Option String
  githubPat : Option String

/-- The backend client modelled as an oracle: getUser resolves a bearer
token to a user id (none on an auth error or missing user), insertOk says
whether the handler's success-log insert-and-select succeeds, and
errInsertOk whether the catch handler's error-log insert succeeds. -/
structure SupabaseWorld where
  getUser : String → Option String
  insertOk : Bool
  errInsertOk : Bool

/-- A row of the git_sync_logs table as the handlers insert it.  A none
operation_type models an undefined field left out of the insert. -/
structure LogRow where
  operation_type : Option String
  status : String
  message : String
  created_by : Option String
  error_details : Option String
deriving DecidableEq

/-- Everything observable about one handler invocation: the HTTP status,
the success flag and error string of the JSON response (none of both for
the empty preflight response), the GitHub API calls issued, and the
audit-log rows inserted. -/
structure Outcome where
  status : Nat
  success : Option Bool
  error : Option String
  gh : List GitHubCall
  rows : List LogRow
deriving DecidableEq

/-- The empty 200 response answering a CORS preflight. -/
def preflight : Outcome :=
  { status := 200, success := none, error := none, gh := [], rows := [] }

/-- The catch handler of index.ts lines 210-241 and part_002 lines
134-166: best-effort insert of an error row (skipped when the backend
configuration is missing or the insert itself fails), then a 400 response.
The error_details field models the stack trace by the error message. -/
def catchWithLog (env : Env) (sw : SupabaseWorld) (gh : List GitHubCall) (msg : String) :
    Outcome :=
  { status := 400, success := some false, error := some msg, gh := gh,
    rows :=
      if optTruthy env.supabaseUrl && optTruthy env.supabaseServiceKey && sw.errInsertOk then
        [{ operation_type := some "error", status := "failed", message := msg,
           created_by := none, error_details := some msg }]
      else [] }

/-- The catch handler of part_001 lines 260-269 and index.ts lines
518-527: no log insert at all, just the 400 response.  Rows inserted
before the failure are passed through. -/
def catchNoLog (gh : List GitHubCall) (rows : List LogRow) (msg : String) : Outcome :=
  { status := 400, success := some false, error := some msg, gh := gh, rows := rows }

/-- Models the SyntaxError message thrown by req.json() on an unparsable
body; the exact text is irrelevant to the verified properties. -/
def jsonErrorMessage : String := "Unexpected end of JSON input"

/-- Models the TypeError thrown when the resolved user is null and user.id
is read (part_001 line 221, index.ts line 476). -/
def nullUserMessage : String := "Cannot read properties of null"

/-- Models the TypeError thrown when customUrl is undefined and
customUrl.match is called (index.ts line 481). -/
def undefinedMatchMessage : String := "Cannot read properties of undefined"

/-- Models the TypeError thrown when repoUrl is undefined and
repoUrl.replace is called (part_002 line 75). -/
def undefinedReplaceMessage : String := "Cannot read properties of undefined"

/-- Models the message of the database error object rethrown when the
completed-log insert fails (part_001 line 246, index.ts line 503). -/
def logInsertErrorMessage : String := "log insert failed"

/-- index.ts lines 130-208, the part of the first handler that runs after
the user is authenticated: parse the body, require operation and
customUrl, require the GitHub token, check repository access by raw path,
run performGitSyncA, then insert the success row and answer 200. -/
def serveARest (env : Env) (sw : SupabaseWorld) (w : GitHubWorld) (userId : String)
    (body : Option ReqBody) : Outcome :=
  match body with
  | none => catchWithLog env sw [] jsonErrorMessage
  | some b =>
    if !(optTruthy b.operation && optTruthy b.customUrl) then
      catchWithLog env sw [] "Operation type and custom repository URL are required"
    else
      match env.githubPat with
      | none => catchWithLog env sw [] "GitHub token not configured"
      | some githubToken =>
        if githubToken == "" then catchWithLog env sw [] "GitHub token not configured"
        else
          let operation := b.operation.getD ""
          let customUrl := b.customUrl.getD ""
          let repoToCheck := if operation == "push" then MASTER_REPO else customUrl
          let repoPath := stripFirst (stripFirst repoToCheck "https://github.com/") ".git"
          let response := w.repoPathResp repoPath
          let c1 := GitHubCall.getRepoPath ("token " ++ githubToken) repoPath
          if !httpOk response.status then
            catchWithLog env sw [c1] ("Repository access failed: " ++ response.body)
          else
            match performGitSyncA w operation customUrl githubToken with
            | (Except.error e, t) => catchWithLog env sw (c1 :: t) e
            | (Except.ok _, t) =>
              if sw.insertOk then
                { status := 200, success := some true, error := none, gh := c1 :: t,
                  rows := [{ operation_type := some operation, status := "completed",
                             message := "Successfully synced " ++
                               (if operation == "push" then "to" else "from") ++
                               " master repository",
                             created_by := some userId, error_details := none }] }
              else catchWithLog env sw (c1 :: t) "Failed to create operation log"

/-- index.ts lines 93-242: the first handler.  Preflight short-circuit,
backend configuration check, Authorization header check, user resolution,
then the authenticated tail. -/
def serveA (env : Env) (sw : SupabaseWorld) (w : GitHubWorld) (req : Request) : Outcome :=
  if req.method == "OPTIONS" then preflight
  else if !(optTruthy env.supabaseUrl && optTruthy env.supabaseServiceKey) then
    catchWithLog env sw [] "Server configuration error"
  else
    match req.authHeader with
    | none => catchWithLog env sw [] "No authorization header"
    | some a =>
      if a == "" then catchWithLog env sw [] "No authorization header"
      else
        match sw.getUser (stripFirst a "Bearer ") with
        | none => catchWithLog env sw [] "Invalid token"
        | some userId => serveARest env sw w userId req.body

/-- Whitespace characters recognized by the platform trim. -/
def isWhitespaceChar (c : Char) : Bool := c == ' ' || c == '\t' || c == '\n' || c == '\r'

/-- Models the JavaScript String.prototype.trim call: strips leading and
trailing whitespace. -/
def jsTrim (s : String) : String :=
  ⟨((s.data.dropWhile isWhitespaceChar).reverse.dropWhile isWhitespaceChar).reverse⟩

/-- part_002 lines 46-132, the part of that handler that runs after the
user is authenticated: parse the body, require operation, require the
operation-specific URL, require the GitHub token, check repository access
by raw path, then insert the completed row and answer 200 without ever
touching a git ref. -/
def serveDRest (env : Env) (sw : SupabaseWorld) (w : GitHubWorld) (userId : String)
    (body : Option ReqBody) : Outcome :=
  match body with
  | none => catchWithLog env sw [] jsonErrorMessage
  | some b =>
    if !optTruthy b.operation then catchWithLog env sw [] "Operation type is required"
    else if b.operation.getD "" == "push" &&
        (!optTruthy b.customUrl || jsTrim (b.customUrl.getD "") == "") then
      catchWithLog env sw [] "Custom repository URL is required for push operations"
    else if b.operation.getD "" == "pull" &&
        (!optTruthy b.masterUrl || jsTrim (b.masterUrl.getD "") == "") then
      catchWithLog env sw [] "Master repository URL is required for pull operations"
    else
      match env.githubPat with
      | none => catchWithLog env sw [] "GitHub token not configured"
      | some githubToken =>
        if githubToken == "" then catchWithLog env sw [] "GitHub token not configured"
        else
          match (if b.operation.getD "" == "push" then b.customUrl else b.masterUrl) with
          | none => catchWithLog env sw [] undefinedReplaceMessage
          | some repoUrl =>
            let repoPath := stripFirst (stripFirst repoUrl "https://github.com/") ".git"
            let response := w.repoPathResp repoPath
            let c1 := GitHubCall.getRepoPath ("token " ++ githubToken) repoPath
            if !httpOk response.status then
              catchWithLog env sw [c1] ("Repository access failed: " ++ response.body)
            else if sw.insertOk then
              { status := 200, success := some true, error := none, gh := [c1],
                rows := [{ operation_type := b.operation, status := "completed",
                           message := "Successfully verified access to " ++ repoUrl,
                           created_by := some userId, error_details := none }] }
            else catchWithLog env sw [c1] "Failed to create operation log"

/-- part_002 lines 9-167: the access-check-only handler. -/
def serveD (env : Env) (sw : SupabaseWorld) (w : GitHubWorld) (req : Request) : Outcome :=
  if req.method == "OPTIONS" then preflight
  else if !(optTruthy env.supabaseUrl && optTruthy env.supabaseServiceKey) then
    catchWithLog env sw [] "Server configuration error"
  else
    match req.authHeader with
    | none => catchWithLog env sw [] "No authorization header"
    | some a =>
      if a == "" then catchWithLog env sw [] "No authorization header"
      else
        match sw.getUser (stripFirst a "Bearer ") with
        | none => catchWithLog env sw [] "Invalid token"
        | some userId => serveDRest env sw w userId req.body

/-- part_001 lines 199-270: the handler around performGitSync.  The
backend client referenced there (supabaseClient) is not defined in the
fragment; it is modelled by the same oracle as the other handlers.  Note
that the completed log row is inserted before the sync runs and that the
catch inserts nothing. -/
def serveC (env : Env) (sw : SupabaseWorld) (w : GitHubWorld) (req : Request) : Outcome :=
  if req.method == "OPTIONS" then preflight
  else
    match req.authHeader with
    | none => catchNoLog [] [] "No authorization header"
    | some a =>
      if a == "" then catchNoLog [] [] "No authorization header"
      else
        match env.githubPat with
        | none => catchNoLog [] [] "GitHub token not configured"
        | some githubToken =>
          if githubToken == "" then catchNoLog [] [] "GitHub token not configured"
          else
            match req.body with
            | none => catchNoLog [] [] jsonErrorMessage
            | some b =>
              match sw.getUser (stripFirst a "Bearer ") with
              | none => catchNoLog [] [] nullUserMessage
              | some userId =>
                if !optTruthy b.customUrl ||
                    (b.operation.getD "" == "push" && !optTruthy b.masterUrl) then
                  catchNoLog [] [] "Missing required URLs"
                else
                  match validateGitHubUrl (b.customUrl.getD "") with
                  | none => catchNoLog [] [] "Invalid custom repository URL"
                  | some _ =>
                    if sw.insertOk then
                      let rows0 : List LogRow :=
                        [{ operation_type := b.operation, status := "completed",
                           message := "Successfully verified access to " ++ b.customUrl.getD "",
                           created_by := some userId, error_details := none }]
                      if optTruthy b.masterUrl then
                        match performGitSync w (b.operation.getD "") (b.customUrl.getD "")
                            (b.masterUrl.getD "") githubToken with
                        | (Except.error e, t) => catchNoLog t rows0 e
                        | (Except.ok _, t) =>
                          { status := 200, success := some true, error := none,
                            gh := t, rows := rows0 }
                      else
                        { status := 200, success := some true, error := none,
                          gh := [], rows := rows0 }
                    else catchNoLog [] [] logInsertErrorMessage

/-- index.ts lines 450-528: the second handler of that file.  It verifies
access to the custom repository, inserts the completed row, and only then,
when a masterUrl was supplied, performs the sync; its catch inserts
nothing.  The supabaseClient it references is modelled by the shared
oracle. -/
def serveB (env : Env) (sw : SupabaseWorld) (w : GitHubWorld) (req : Request) : Outcome :=
  if req.method == "OPTIONS" then preflight
  else
    match req.authHeader with
    | none => catchNoLog [] [] "No authorization header"
    | some a =>
      if a == "" then catchNoLog [] [] "No authorization header"
      else
        match env.githubPat with
        | none => catchNoLog [] [] "GitHub token not configured"
        | some githubToken =>
          if githubToken == "" then catchNoLog [] [] "GitHub token not configured"
          else
            match req.body with
            | none => catchNoLog [] [] jsonErrorMessage
            | some b =>
              match sw.getUser (stripFirst a "Bearer ") with
              | none => catchNoLog [] [] nullUserMessage
              | some userId =>
                match b.customUrl with
                | none => catchNoLog [] [] undefinedMatchMessage
                | some customUrl =>
                  match matchDollar customUrl with
                  | none => catchNoLog [] [] "Invalid repository URL"
                  | some customRepo =>
                    match verifyRepositoryAccess w customRepo.owner customRepo.repo githubToken with
                    | (Except.error e, t1) => catchNoLog t1 [] e
                    | (Except.ok _, t1) =>
                      if sw.insertOk then
                        let rows0 : List LogRow :=
                          [{ operation_type := b.operation, status := "completed",
                             message := "Successfully verified access to " ++ customUrl,
                             created_by := some userId, error_details := none }]
                        if optTruthy b.masterUrl then
                          match performGitSyncB w (b.operation.getD "") customUrl
                              (b.masterUrl.getD "") githubToken with
                          | (Except.error e, t2) => catchNoLog (t1 ++ t2) rows0 e
                          | (Except.ok _, t2) =>
                            { status := 200, success := some true, error := none,
                              gh := t1 ++ t2, rows := rows0 }
                        else
                          { status := 200, success := some true, error := none,
                            gh := t1, rows := rows0 }
                      else catchNoLog t1 [] logInsertErrorMessage

/-- The repository whose ref a sync reads: the master repository on pull,
the custom repository on push. -/
def syncSource (operation : String) (customRepo masterRepo : RepoId) : RepoId :=
  if operation == "pull" then masterRepo else customRepo

/-- The repository whose ref a sync writes: the custom repository on pull,
the master repository on push. -/
def syncDest (operation : String) (customRepo masterRepo : RepoId) : RepoId :=
  if operation == "pull" then customRepo else masterRepo

/-- The default branch the metadata oracle reports for a repository. -/
def defaultBranchOf (w : GitHubWorld) (r : RepoId) : String :=
  (w.repoResp r.owner r.repo).default_branch

/-- Fixture: a GitHub oracle where every request succeeds. -/
def ghWorldOk : GitHubWorld :=
  { refResp := fun _ _ _ => ⟨200, "", "srcsha", ""⟩,
    createResp := fun _ _ _ _ => ⟨201, "", "newsha", ""⟩,
    updateResp := fun _ _ _ _ => ⟨200, "", "updsha", ""⟩,
    repoResp := fun _ _ => ⟨200, "", "", "main"⟩,
    repoPathResp := fun _ => ⟨200, "", "", ""⟩ }

/-- Fixture: a GitHub oracle where every ref lookup answers 404. -/
def ghWorld404 : GitHubWorld :=
  { refResp := fun _ _ _ => ⟨404, "Not Found", "", ""⟩,
    createResp := fun _ _ _ _ => ⟨201, "", "newsha", ""⟩,
    updateResp := fun _ _ _ _ => ⟨200, "", "updsha", ""⟩,
    repoResp := fun _ _ => ⟨200, "", "", "main"⟩,
    repoPathResp := fun _ => ⟨200, "", "", ""⟩ }

/-- Fixture: a GitHub oracle where every ref lookup answers 500. -/
def ghWorld500 : GitHubWorld :=
  { refResp := fun _ _ _ => ⟨500, "boom", "", ""⟩,
    createResp := fun _ _ _ _ => ⟨201, "", "newsha", ""⟩,
    updateResp := fun _ _ _ _ => ⟨200, "", "updsha", ""⟩,
    repoResp := fun _ _ => ⟨200, "", "", "main"⟩,
    repoPathResp := fun _ => ⟨200, "", "", ""⟩ }

/-- Fixture: a GitHub oracle where repository metadata answers 500, so
default-branch resolution fails. -/
def ghWorldRepo500 : GitHubWorld :=
  { refResp := fun _ _ _ => ⟨200, "", "srcsha", ""⟩,
    createResp := fun _ _ _ _ => ⟨201, "", "newsha", ""⟩,
    updateResp := fun _ _ _ _ => ⟨200, "", "updsha", ""⟩,
    repoResp := fun _ _ => ⟨500, "boom", "", ""⟩,
    repoPathResp := fun _ => ⟨200, "", "", ""⟩ }

/-- Fixture: a GitHub oracle whose repository metadata reports develop as
the default branch of every repository. -/
def ghWorldDevelop : GitHubWorld :=
  { refResp := fun _ _ _ => ⟨200, "", "shaX", ""⟩,
    createResp := fun _ _ _ _ => ⟨201, "", "shaX", ""⟩,
    updateResp := fun _ _ _ _ => ⟨200, "", "shaX", ""⟩,
    repoResp := fun _ _ => ⟨200, "", "", "develop"⟩,
    repoPathResp := fun _ => ⟨200, "", "", ""⟩ }

/-- Fixture: an environment with all three variables set. -/
def envOk : Env :=
  { supabaseUrl := some "https://backend.example", supabaseServiceKey := some "service-key",
    githubPat := some "PAT" }

/-- Fixture: a backend oracle that authenticates every token as user-1 and
whose log inserts succeed. -/
def swOk : SupabaseWorld :=
  { getUser := fun _ => some "user-1", insertOk := true, errInsertOk := true }

/-- Fixture: a pull request carrying both repository URLs. -/
def reqPull : Request :=
  { method := "POST", authHeader := some "Bearer jwt-a",
    body := some { operation := some "pull", customUrl := some "https://github.com/a/b",
                   masterUrl := some "https://github.com/c/d" } }

/-- Fixture: the same pull request with a different bearer token. -/
def reqPullOtherJwt : Request :=
  { method := "POST", authHeader := some "Bearer jwt-b",
    body := some { operation := some "pull", customUrl := some "https://github.com/a/b",
                   masterUrl := some "https://github.com/c/d" } }

/-- Fixture: a pull request with no masterUrl field. -/
def reqPullNoMaster : Request :=
  { method := "POST", authHeader := some "Bearer jwt-a",
    body := some { operation := some "pull", customUrl := some "https://github.com/a/b",
                   masterUrl := none } }

/-- Fixture: a request with no Authorization header. -/
def reqNoAuth : Request :=
  { method := "POST", authHeader := none,
    body := some { operation := some "pull", customUrl := some "https://github.com/a/b",
                   masterUrl := some "https://github.com/c/d" } }

/-- Fixture: a CORS preflight request carrying no Authorization header. -/
def reqPreflightNoAuth : Request :=
  { method := "OPTIONS", authHeader := none, body := none }

theorem string_data_append (a b : String) : (a ++ b).data = a.data ++ b.data := by
  cases a; cases b; rfl

theorem isPrefixOf_self (l : List Char) : l.isPrefixOf l = true := by
  induction l with
  | nil => rfl
  | cons a t ih => simp [List.isPrefixOf, ih]

theorem prefix_of_append (l t : List Char) : l.isPrefixOf (l ++ t) = true := by
  induction l with
  | nil => simp [List.isPrefixOf]
  | cons a s ih => simp [List.isPrefixOf, ih]

theorem ghLit_head_mismatch (c : Char) (rest : List Char) (h : ('g' == c) = false) :
    ghLit.isPrefixOf (c :: rest) = false := by
  simp only [ghLit, List.isPrefixOf, h, Bool.false_and]

theorem listContains_append_self (pat l : List Char) : listContains pat (l ++ pat) = true := by
  induction l with
  | nil =>
    cases pat with
    | nil => rfl
    | cons a t => simp [listContains, isPrefixOf_self]
  | cons a t ih => simp [listContains, ih]

theorem takeWhile_append_of_all (p : Char → Bool) (l t : List Char) (h : l.all p = true) :
    (l ++ t).takeWhile p = l ++ t.takeWhile p := by
  induction l with
  | nil => rfl
  | cons a s ih =>
    simp only [List.all_cons, Bool.and_eq_true] at h
    simp [List.takeWhile_cons, h.1, ih h.2]

theorem dropWhile_append_of_all (p : Char → Bool) (l t : List Char) (h : l.all p = true) :
    (l ++ t).dropWhile p = t.dropWhile p := by
  induction l with
  | nil => rfl
  | cons a s ih =>
    simp only [List.all_cons, Bool.and_eq_true] at h
    simp [List.dropWhile_cons, h.1, ih h.2]

theorem takeWhile_of_all (p : Char → Bool) (l : List Char) (h : l.all p = true) :
    l.takeWhile p = l := by
  have := takeWhile_append_of_all p l [] h
  simpa using this

theorem dropWhile_of_all (p : Char → Bool) (l : List Char) (h : l.all p = true) :
    l.dropWhile p = [] := by
  have := dropWhile_append_of_all p l [] h
  simpa using this

theorem takeWhile_cons_neg (p : Char → Bool) (a : Char) (l : List Char) (h : p a = false) :
    (a :: l).takeWhile p = [] := by
  simp [List.takeWhile_cons, h]

theorem dropWhile_cons_neg (p : Char → Bool) (a : Char) (l : List Char) (h : p a = false) :
    (a :: l).dropWhile p = a :: l := by
  simp [List.dropWhile_cons, h]

theorem afterSchemeSep_cons_ne (c : Char) (rest : List Char) (h : (c == ':') = false) :
    afterSchemeSep (c :: rest) = afterSchemeSep rest := by
  simp [afterSchemeSep, h]

theorem afterSchemeSep_sep (t : List Char) :
    afterSchemeSep (':' :: '/' :: '/' :: t) = some t := by
  simp [afterSchemeSep, List.isPrefixOf]

theorem scanFor_cons_ne (f : List Char → Option (String × String)) (c : Char)
    (rest : List Char) (h : ghLit.isPrefixOf (c :: rest) = false) :
    scanFor f (c :: rest) = scanFor f rest := by
  simp [scanFor, h]

theorem scanFor_append_hit (f : List Char → Option (String × String)) (t : List Char)
    (res : String × String) (hf : f t = some res) :
    scanFor f (ghLit ++ t) = some res := by
  have hp : ghLit.isPrefixOf ('g' :: (['i', 't', 'h', 'u', 'b', '.', 'c', 'o', 'm', '/'] ++ t)) = true :=
    prefix_of_append ghLit t
  have hd : (('g' :: (['i', 't', 'h', 'u', 'b', '.', 'c', 'o', 'm', '/'] ++ t)).drop ghLit.length) = t :=
    List.drop_left ghLit t
  show scanFor f ('g' :: (['i', 't', 'h', 'u', 'b', '.', 'c', 'o', 'm', '/'] ++ t)) = some res
  rw [scanFor, hp]
  simp only [if_true, hd, hf]

/-- C3: the Reference Reader turns a 404 response into the absent signal
(null) rather than an error, turns any other non-2xx status into a fatal
error whose message contains the response body text, and turns a 2xx
status into the ref object carrying the embedded commit sha. -/
theorem getGitHubReference_status_behaviour (w : GitHubWorld) (owner repo ref token : String) :
    ((w.refResp owner repo ref).status = 404 →
      (getGitHubReference w owner repo ref token).1 = Except.ok none) ∧
    (httpOk (w.refResp owner repo ref).status = true →
      (getGitHubReference w owner repo ref token).1 =
        Except.ok (some ⟨(w.refResp owner repo ref).sha⟩)) ∧
    (httpOk (w.refResp owner repo ref).status = false →
      (w.refResp owner repo ref).status ≠ 404 →
      (getGitHubReference w owner repo ref token).1 =
        Except.error ("Failed to get reference: " ++ (w.refResp owner repo ref).body) ∧
      strContains ("Failed to get reference: " ++ (w.refResp owner repo ref).body)
        (w.refResp owner repo ref).body = true) := by
  refine ⟨fun h404 => ?_, fun hok => ?_, fun hbad h404 => ⟨?_, ?_⟩⟩
  · simp [getGitHubReference, h404, httpOk]
  · simp [getGitHubReference, hok]
  · simp [getGitHubReference, hbad, h404]
  · unfold strContains
    rw [string_data_append]
    exact listContains_append_self _ _

/-- Witness for C3 at concrete responses: a 404 oracle yields the absent
signal, a 200 oracle yields the sha, a 500 oracle yields the error
carrying the body text. -/
theorem getGitHubReference_status_behaviour_witness :
    ((ghWorld404.refResp "o" "r" "b").status = 404 ∧
      (getGitHubReference ghWorld404 "o" "r" "b" "t").1 = Except.ok none) ∧
    (httpOk (ghWorldOk.refResp "o" "r" "b").status = true ∧
      (getGitHubReference ghWorldOk "o" "r" "b" "t").1 = Except.ok (some ⟨"srcsha"⟩)) ∧
    (httpOk (ghWorld500.refResp "o" "r" "b").status = false ∧
      (getGitHubReference ghWorld500 "o" "r" "b" "t").1 =
        Except.error ("Failed to get reference: " ++ "boom")) :=
  ⟨⟨rfl, (getGitHubReference_status_behaviour ghWorld404 "o" "r" "b" "t").1 rfl⟩,
   ⟨by decide, (getGitHubReference_status_behaviour ghWorldOk "o" "r" "b" "t").2.1 (by decide)⟩,
   ⟨by decide,
    ((getGitHubReference_status_behaviour ghWorld500 "o" "r" "b" "t").2.2 (by decide)
      (by decide)).1⟩⟩

/-- C2: the Reference Writer, given an absent branch (the existence check
answers 404), issues exactly one create call carrying the exact target sha
and no update call; given an existing branch (2xx existence check), it
issues exactly one force update and never a create call. -/
theorem updateGitHubReference_create_or_force_update (w : GitHubWorld)
    (owner repo ref sha token : String) :
    ((w.refResp owner repo ref).status = 404 →
      (updateGitHubReference w owner repo ref sha token).2 =
        [GitHubCall.getRef ("Bearer " ++ token) owner repo ref,
         GitHubCall.createRef ("Bearer " ++ token) owner repo ref sha]) ∧
    (httpOk (w.refResp owner repo ref).status = true →
      (updateGitHubReference w owner repo ref sha token).2 =
        [GitHubCall.getRef ("Bearer " ++ token) owner repo ref,
         GitHubCall.updateRef ("Bearer " ++ token) owner repo ref sha true]) := by
  constructor
  · intro h404
    simp only [updateGitHubReference, getGitHubReference, createGitHubReference, h404]
    norm_num [httpOk]
    split <;> rfl
  · intro hok
    simp only [updateGitHubReference, getGitHubReference, hok, if_true]
    split <;> rfl

/-- Witness for C2: against the 404 oracle the writer issues the read then
the create carrying the target sha; against the all-ok oracle it issues
the read then the force update. -/
theorem updateGitHubReference_create_or_force_update_witness :
    ((ghWorld404.refResp "o" "r" "b").status = 404 ∧
      (updateGitHubReference ghWorld404 "o" "r" "b" "target-sha" "t").2 =
        [GitHubCall.getRef ("Bearer " ++ "t") "o" "r" "b",
         GitHubCall.createRef ("Bearer " ++ "t") "o" "r" "b" "target-sha"]) ∧
    (httpOk (ghWorldOk.refResp "o" "r" "b").status = true ∧
      (updateGitHubReference ghWorldOk "o" "r" "b" "target-sha" "t").2 =
        [GitHubCall.getRef ("Bearer " ++ "t") "o" "r" "b",
         GitHubCall.updateRef ("Bearer " ++ "t") "o" "r" "b" "target-sha" true]) :=
  ⟨⟨rfl, (updateGitHubReference_create_or_force_update ghWorld404 "o" "r" "b" "target-sha" "t").1
      rfl⟩,
   ⟨by decide,
    (updateGitHubReference_create_or_force_update ghWorldOk "o" "r" "b" "target-sha" "t").2
      (by decide)⟩⟩

/-- C1: for either sync operation, when the resolved source ref is absent
(the Reference Reader sees a 404), the orchestrator of part_001 aborts
with a fatal error containing reference not found, and the issued call
trace contains no ref-mutating call. -/
theorem absent_source_ref_aborts_before_write (w : GitHubWorld)
    (operation customUrl masterUrl githubToken : String) (c m : RepoId)
    (hc : validateGitHubUrl customUrl = some c)
    (hm : validateGitHubUrl masterUrl = some m)
    (hop : operation = "pull" ∨ operation = "push")
    (hmb : httpOk (w.repoResp m.owner m.repo).status = true)
    (hcb : httpOk (w.repoResp c.owner c.repo).status = true)
    (h404 : (w.refResp (syncSource operation c m).owner (syncSource operation c m).repo
        (defaultBranchOf w (syncSource operation c m))).status = 404) :
    (∃ e, (performGitSync w operation customUrl masterUrl githubToken).1 = Except.error e ∧
       strContains e "reference not found" = true) ∧
    (performGitSync w operation customUrl masterUrl githubToken).2.all
      (fun call => !call.isMutating) = true := by
  have hmb' : 200 ≤ (w.repoResp m.owner m.repo).status ∧ (w.repoResp m.owner m.repo).status < 300 := by
    simpa [httpOk] using hmb
  have hcb' : 200 ≤ (w.repoResp c.owner c.repo).status ∧ (w.repoResp c.owner c.repo).status < 300 := by
    simpa [httpOk] using hcb
  rcases hop with hop | hop <;> subst hop
  · have h404' : (w.refResp m.owner m.repo (w.repoResp m.owner m.repo).default_branch).status
        = 404 := by
      simpa [syncSource, defaultBranchOf] using h404
    refine ⟨⟨"Master branch reference not found", ?_, by decide⟩, ?_⟩ <;>
      simp [performGitSync, hc, hm, syncCore, getDefaultBranch, hmb'.1, hmb'.2, hcb'.1, hcb'.2,
        getGitHubReference, h404', httpOk, GitHubCall.isMutating]
  · have h404' : (w.refResp c.owner c.repo (w.repoResp c.owner c.repo).default_branch).status
        = 404 := by
      simpa [syncSource, defaultBranchOf] using h404
    refine ⟨⟨"Custom branch reference not found", ?_, by decide⟩, ?_⟩ <;>
      simp [performGitSync, hc, hm, syncCore, getDefaultBranch, hmb'.1, hmb'.2, hcb'.1, hcb'.2,
        getGitHubReference, h404', httpOk, GitHubCall.isMutating]

/-- Witness for C1: a concrete pull against the 404 oracle fails with the
reference-not-found error and issues no mutating call. -/
theorem absent_source_ref_aborts_before_write_witness :
    validateGitHubUrl "https://github.com/a/b" = some ⟨"a", "b"⟩ ∧
    validateGitHubUrl "https://github.com/c/d" = some ⟨"c", "d"⟩ ∧
    httpOk (ghWorld404.repoResp "c" "d").status = true ∧
    httpOk (ghWorld404.repoResp "a" "b").status = true ∧
    (ghWorld404.refResp (syncSource "pull" ⟨"a", "b"⟩ ⟨"c", "d"⟩).owner
      (syncSource "pull" ⟨"a", "b"⟩ ⟨"c", "d"⟩).repo
      (defaultBranchOf ghWorld404 (syncSource "pull" ⟨"a", "b"⟩ ⟨"c", "d"⟩))).status = 404 ∧
    ((∃ e, (performGitSync ghWorld404 "pull" "https://github.com/a/b" "https://github.com/c/d"
        "tok").1 = Except.error e ∧ strContains e "reference not found" = true) ∧
      (performGitSync ghWorld404 "pull" "https://github.com/a/b" "https://github.com/c/d"
        "tok").2.all (fun call => !call.isMutating) = true) :=
  ⟨by decide, by decide, by decide, by decide, by decide,
   absent_source_ref_aborts_before_write ghWorld404 "pull" "https://github.com/a/b"
     "https://github.com/c/d" "tok" ⟨"a", "b"⟩ ⟨"c", "d"⟩ (by decide) (by decide) (Or.inl rfl)
     (by decide) (by decide) (by decide)⟩

/-- C5 counterexample: the first index.ts orchestrator (performGitSyncA,
one of the two code places the claim cites) never queries repository
metadata and reads and writes the constant branch main even when the
metadata oracle reports develop as both default branches, so for that
orchestrator the branch names are fixed constants. -/
theorem performGitSyncA_ignores_default_branch :
    (ghWorldDevelop.repoResp "imedia765" "s-935078").default_branch = "develop" ∧
    (ghWorldDevelop.repoResp "a" "b").default_branch = "develop" ∧
    (performGitSyncA ghWorldDevelop "pull" "https://github.com/a/b" "tok").2 =
      [GitHubCall.getRef ("token " ++ "tok") "imedia765" "s-935078" "main",
       GitHubCall.updateRef ("token " ++ "tok") "a" "b" "main" "shaX" true] ∧
    (performGitSyncA ghWorldDevelop "pull" "https://github.com/a/b" "tok").2.all
      (fun call =>
        match call with
        | GitHubCall.getRepo _ _ _ => false
        | _ => true) = true :=
  ⟨rfl, rfl, by decide, by decide⟩

/-- C5 amended: the part_001 orchestrator (performGitSync) does resolve
both default branches from repository metadata and uses the master
repository's default branch as the source ref and the custom repository's
default branch as the destination ref on pull, and the reverse on push;
the first index.ts orchestrator instead hardcodes the branch main. -/
theorem performGitSync_uses_default_branches (w : GitHubWorld)
    (operation customUrl masterUrl githubToken : String) (c m : RepoId)
    (hc : validateGitHubUrl customUrl = some c)
    (hm : validateGitHubUrl masterUrl = some m)
    (hop : operation = "pull" ∨ operation = "push")
    (hmb : httpOk (w.repoResp m.owner m.repo).status = true)
    (hcb : httpOk (w.repoResp c.owner c.repo).status = true)
    (hsrc : httpOk (w.refResp (syncSource operation c m).owner (syncSource operation c m).repo
        (defaultBranchOf w (syncSource operation c m))).status = true)
    (hdst : httpOk (w.refResp (syncDest operation c m).owner (syncDest operation c m).repo
        (defaultBranchOf w (syncDest operation c m))).status = true) :
    (performGitSync w operation customUrl masterUrl githubToken).2 =
      [GitHubCall.getRepo ("Bearer " ++ githubToken) m.owner m.repo,
       GitHubCall.getRepo ("Bearer " ++ githubToken) c.owner c.repo,
       GitHubCall.getRef ("Bearer " ++ githubToken) (syncSource operation c m).owner
         (syncSource operation c m).repo (defaultBranchOf w (syncSource operation c m)),
       GitHubCall.getRef ("Bearer " ++ githubToken) (syncDest operation c m).owner
         (syncDest operation c m).repo (defaultBranchOf w (syncDest operation c m)),
       GitHubCall.updateRef ("Bearer " ++ githubToken) (syncDest operation c m).owner
         (syncDest operation c m).repo (defaultBranchOf w (syncDest operation c m))
         (w.refResp (syncSource operation c m).owner (syncSource operation c m).repo
           (defaultBranchOf w (syncSource operation c m))).sha true] := by
  rcases hop with hop | hop <;> subst hop
  · have hsrc' : httpOk
        (w.refResp m.owner m.repo (w.repoResp m.owner m.repo).default_branch).status = true := by
      simpa [syncSource, defaultBranchOf] using hsrc
    have hdst' : httpOk
        (w.refResp c.owner c.repo (w.repoResp c.owner c.repo).default_branch).status = true := by
      simpa [syncDest, defaultBranchOf] using hdst
    cases hupd : httpOk (w.updateResp c.owner c.repo (w.repoResp c.owner c.repo).default_branch
        (w.refResp m.owner m.repo (w.repoResp m.owner m.repo).default_branch).sha).status <;>
      simp [performGitSync, hc, hm, syncCore, getDefaultBranch, getGitHubReference,
        updateGitHubReference, hmb, hcb, hsrc', hdst', hupd, syncSource, syncDest, defaultBranchOf]
  · have hsrc' : httpOk
        (w.refResp c.owner c.repo (w.repoResp c.owner c.repo).default_branch).status = true := by
      simpa [syncSource, defaultBranchOf] using hsrc
    have hdst' : httpOk
        (w.refResp m.owner m.repo (w.repoResp m.owner m.repo).default_branch).status = true := by
      simpa [syncDest, defaultBranchOf] using hdst
    cases hupd : httpOk (w.updateResp m.owner m.repo (w.repoResp m.owner m.repo).default_branch
        (w.refResp c.owner c.repo (w.repoResp c.owner c.repo).default_branch).sha).status <;>
      simp [performGitSync, hc, hm, syncCore, getDefaultBranch, getGitHubReference,
        updateGitHubReference, hmb, hcb, hsrc', hdst', hupd, syncSource, syncDest, defaultBranchOf]

/-- Witness for C5 amended: a concrete pull against the all-ok oracle
issues exactly the two metadata reads, the two ref reads on the resolved
default branch, and the force update of the custom repository. -/
theorem performGitSync_uses_default_branches_witness :
    validateGitHubUrl "https://github.com/a/b" = some ⟨"a", "b"⟩ ∧
    validateGitHubUrl "https://github.com/c/d" = some ⟨"c", "d"⟩ ∧
    (performGitSync ghWorldOk "pull" "https://github.com/a/b" "https://github.com/c/d" "tok").2 =
      [GitHubCall.getRepo ("Bearer " ++ "tok") "c" "d",
       GitHubCall.getRepo ("Bearer " ++ "tok") "a" "b",
       GitHubCall.getRef ("Bearer " ++ "tok") (syncSource "pull" ⟨"a", "b"⟩ ⟨"c", "d"⟩).owner
         (syncSource "pull" ⟨"a", "b"⟩ ⟨"c", "d"⟩).repo
         (defaultBranchOf ghWorldOk (syncSource "pull" ⟨"a", "b"⟩ ⟨"c", "d"⟩)),
       GitHubCall.getRef ("Bearer " ++ "tok") (syncDest "pull" ⟨"a", "b"⟩ ⟨"c", "d"⟩).owner
         (syncDest "pull" ⟨"a", "b"⟩ ⟨"c", "d"⟩).repo
         (defaultBranchOf ghWorldOk (syncDest "pull" ⟨"a", "b"⟩ ⟨"c", "d"⟩)),
       GitHubCall.updateRef ("Bearer " ++ "tok") (syncDest "pull" ⟨"a", "b"⟩ ⟨"c", "d"⟩).owner
         (syncDest "pull" ⟨"a", "b"⟩ ⟨"c", "d"⟩).repo
         (defaultBranchOf ghWorldOk (syncDest "pull" ⟨"a", "b"⟩ ⟨"c", "d"⟩))
         (ghWorldOk.refResp (syncSource "pull" ⟨"a", "b"⟩ ⟨"c", "d"⟩).owner
           (syncSource "pull" ⟨"a", "b"⟩ ⟨"c", "d"⟩).repo
           (defaultBranchOf ghWorldOk (syncSource "pull" ⟨"a", "b"⟩ ⟨"c", "d"⟩))).sha true] :=
  ⟨by decide, by decide,
   performGitSync_uses_default_branches ghWorldOk "pull" "https://github.com/a/b"
     "https://github.com/c/d" "tok" ⟨"a", "b"⟩ ⟨"c", "d"⟩ (by decide) (by decide) (Or.inl rfl)
     (by decide) (by decide) (by decide) (by decide)⟩

theorem matchTail_plain (o r : String) (ho2 : o.data.all (· != '/') = true)
    (hr2 : r.data.all (· != '.') = true) (hod : o.data ≠ []) (hrd : r.data ≠ []) :
    matchTail (o.data ++ '/' :: r.data) = some (o, r) := by
  have hoe : o.data.isEmpty = false := by
    cases h : o.data
    · exact absurd h hod
    · rfl
  have hre : r.data.isEmpty = false := by
    cases h : r.data
    · exact absurd h hrd
    · rfl
  simp only [matchTail]
  rw [takeWhile_append_of_all _ _ _ ho2, dropWhile_append_of_all _ _ _ ho2,
    takeWhile_cons_neg _ _ _ (by decide), dropWhile_cons_neg _ _ _ (by decide)]
  simp only [List.append_nil]
  simp [hoe, takeWhile_of_all _ _ hr2, dropWhile_of_all _ _ hr2, hre]

theorem matchTail_git (o r : String) (ho2 : o.data.all (· != '/') = true)
    (hr2 : r.data.all (· != '.') = true) (hod : o.data ≠ []) (hrd : r.data ≠ []) :
    matchTail (o.data ++ '/' :: (r.data ++ gitSuffix)) = some (o, r) := by
  have hoe : o.data.isEmpty = false := by
    cases h : o.data
    · exact absurd h hod
    · rfl
  have hre : r.data.isEmpty = false := by
    cases h : r.data
    · exact absurd h hrd
    · rfl
  simp only [matchTail]
  rw [takeWhile_append_of_all _ _ _ ho2, dropWhile_append_of_all _ _ _ ho2,
    takeWhile_cons_neg _ _ _ (by decide), dropWhile_cons_neg _ _ _ (by decide)]
  simp only [List.append_nil]
  rw [takeWhile_append_of_all _ _ _ hr2, dropWhile_append_of_all _ _ _ hr2,
    show gitSuffix.takeWhile (· != '.') = [] from by decide,
    show gitSuffix.dropWhile (· != '.') = gitSuffix from by decide]
  simp [hoe, hre]

theorem scanGithub_at_github (Y : List Char) (o r : String)
    (hmt : matchTail Y = some (o, r)) :
    scanGithub (['h', 't', 't', 'p', 's', ':', '/', '/'] ++ (ghLit ++ Y)) = some (o, r) := by
  unfold scanGithub
  rw [show (['h', 't', 't', 'p', 's', ':', '/', '/'] ++ (ghLit ++ Y)) =
    'h' :: 't' :: 't' :: 'p' :: 's' :: ':' :: '/' :: '/' :: (ghLit ++ Y) from rfl]
  rw [scanFor_cons_ne _ 'h' _ (ghLit_head_mismatch _ _ (by decide)),
      scanFor_cons_ne _ 't' _ (ghLit_head_mismatch _ _ (by decide)),
      scanFor_cons_ne _ 't' _ (ghLit_head_mismatch _ _ (by decide)),
      scanFor_cons_ne _ 'p' _ (ghLit_head_mismatch _ _ (by decide)),
      scanFor_cons_ne _ 's' _ (ghLit_head_mismatch _ _ (by decide)),
      scanFor_cons_ne _ ':' _ (ghLit_head_mismatch _ _ (by decide)),
      scanFor_cons_ne _ '/' _ (ghLit_head_mismatch _ _ (by decide)),
      scanFor_cons_ne _ '/' _ (ghLit_head_mismatch _ _ (by decide))]
  exact scanFor_append_hit _ _ _ hmt

theorem validateGitHubUrl_at_github (Y : List Char) (o r : String)
    (hmt : matchTail Y = some (o, r)) :
    validateGitHubUrl ⟨['h', 't', 't', 'p', 's', ':', '/', '/'] ++ (ghLit ++ Y)⟩ = some ⟨o, r⟩ := by
  have hhost : urlHostname ⟨['h', 't', 't', 'p', 's', ':', '/', '/'] ++ (ghLit ++ Y)⟩
      = some "github.com" := by
    unfold urlHostname
    have hsep : afterSchemeSep
        (['h', 't', 't', 'p', 's', ':', '/', '/'] ++ (ghLit ++ Y)) = some (ghLit ++ Y) := by
      rw [show (['h', 't', 't', 'p', 's', ':', '/', '/'] ++ (ghLit ++ Y)) =
        'h' :: 't' :: 't' :: 'p' :: 's' :: ':' :: '/' :: '/' :: (ghLit ++ Y) from rfl]
      rw [afterSchemeSep_cons_ne 'h' _ (by decide), afterSchemeSep_cons_ne 't' _ (by decide),
          afterSchemeSep_cons_ne 't' _ (by decide), afterSchemeSep_cons_ne 'p' _ (by decide),
          afterSchemeSep_cons_ne 's' _ (by decide), afterSchemeSep_sep]
    simp only [hsep]
    rw [show ghLit ++ Y = ['g', 'i', 't', 'h', 'u', 'b', '.', 'c', 'o', 'm'] ++ ('/' :: Y) from rfl]
    rw [takeWhile_append_of_all _ _ _ (by decide), takeWhile_cons_neg _ _ _ (by decide)]
    rfl
  have hscan : scanGithub
      (⟨['h', 't', 't', 'p', 's', ':', '/', '/'] ++ (ghLit ++ Y)⟩ : String).data = some (o, r) :=
    scanGithub_at_github Y o r hmt
  simp only [validateGitHubUrl, hhost, hscan]
  simp

/-- C6 counterexample: the URL https://github.com/a/b/c has host
github.com but a three-segment path, so by the claim the parser must
reject it; validateGitHubUrl instead accepts it, folding the extra
segment into the repo capture. -/
theorem validateGitHubUrl_accepts_multi_segment_path :
    validateGitHubUrl "https://github.com/a/b/c" = some ⟨"a", "b/c"⟩ ∧
    urlHostname "https://github.com/a/b/c" = some "github.com" ∧
    specUrlAccepts "https://github.com/a/b/c" = false :=
  ⟨by decide, by decide, by decide⟩

/-- C7 counterexample: an OPTIONS request without an Authorization header
is answered by the CORS-preflight branch of every handler with status 200
and an empty body, not with the claimed 400 failure, so the claim does not
hold for every request. -/
theorem preflight_not_rejected_without_auth :
    reqPreflightNoAuth.authHeader = none ∧
    (serveA envOk swOk ghWorldOk reqPreflightNoAuth).status = 200 ∧
    (serveA envOk swOk ghWorldOk reqPreflightNoAuth).success = none ∧
    (serveB envOk swOk ghWorldOk reqPreflightNoAuth).status = 200 ∧
    (serveC envOk swOk ghWorldOk reqPreflightNoAuth).status = 200 ∧
    (serveD envOk swOk ghWorldOk reqPreflightNoAuth).status = 200 :=
  ⟨rfl, by decide, by decide, by decide, by decide, by decide⟩

/-- C7 amended: for every request that is not a CORS preflight, if the
Authorization header is missing then each of the four handler variants
answers 400 with success false and issues no GitHub API call at all (and
hence makes no use of the GitHub token); an OPTIONS preflight is instead
answered 200 with an empty body before any header checking. -/
theorem missing_auth_header_rejected_without_github_calls
    (env : Env) (sw : SupabaseWorld) (w : GitHubWorld) (req : Request)
    (hmethod : req.method ≠ "OPTIONS") (hauth : req.authHeader = none) :
    ((serveA env sw w req).status = 400 ∧ (serveA env sw w req).success = some false ∧
      (serveA env sw w req).gh = []) ∧
    ((serveB env sw w req).status = 400 ∧ (serveB env sw w req).success = some false ∧
      (serveB env sw w req).gh = []) ∧
    ((serveC env sw w req).status = 400 ∧ (serveC env sw w req).success = some false ∧
      (serveC env sw w req).gh = []) ∧
    ((serveD env sw w req).status = 400 ∧ (serveD env sw w req).success = some false ∧
      (serveD env sw w req).gh = []) := by
  have hm' : (req.method == "OPTIONS") = false := by
    cases hbe : req.method == "OPTIONS"
    · rfl
    · exact absurd (eq_of_beq hbe) hmethod
  cases hcfg : (optTruthy env.supabaseUrl && optTruthy env.supabaseServiceKey) <;>
    simp [serveA, serveB, serveC, serveD, hm', hauth, hcfg, catchWithLog, catchNoLog, preflight]

/-- Witness for C7 amended: the concrete non-preflight request without an
Authorization header is rejected by all four handlers with no GitHub
traffic. -/
theorem missing_auth_header_rejected_without_github_calls_witness :
    reqNoAuth.method ≠ "OPTIONS" ∧ reqNoAuth.authHeader = none ∧
    (((serveA envOk swOk ghWorldOk reqNoAuth).status = 400 ∧
      (serveA envOk swOk ghWorldOk reqNoAuth).success = some false ∧
      (serveA envOk swOk ghWorldOk reqNoAuth).gh = []) ∧
     ((serveB envOk swOk ghWorldOk reqNoAuth).status = 400 ∧
      (serveB envOk swOk ghWorldOk reqNoAuth).success = some false ∧
      (serveB envOk swOk ghWorldOk reqNoAuth).gh = []) ∧
     ((serveC envOk swOk ghWorldOk reqNoAuth).status = 400 ∧
      (serveC envOk swOk ghWorldOk reqNoAuth).success = some false ∧
      (serveC envOk swOk ghWorldOk reqNoAuth).gh = []) ∧
     ((serveD envOk swOk ghWorldOk reqNoAuth).status = 400 ∧
      (serveD envOk swOk ghWorldOk reqNoAuth).success = some false ∧
      (serveD envOk swOk ghWorldOk reqNoAuth).gh = [])) :=
  ⟨by decide, rfl,
   missing_auth_header_rejected_without_github_calls envOk swOk ghWorldOk reqNoAuth
     (by decide) rfl⟩

/-- C10: the part_002 handler never issues a ref create or update: for
every request, every GitHub call in its trace is the single
repository-metadata GET of the access check (so at most one call), no
call is mutating, and on the success path the one inserted row is
nevertheless logged with status completed. -/
theorem serveD_issues_only_metadata_get (env : Env) (sw : SupabaseWorld) (w : GitHubWorld)
    (req : Request) :
    ((serveD env sw w req).gh.all (fun call => call.isRepoPathGet) = true) ∧
    ((serveD env sw w req).gh.all (fun call => !call.isMutating) = true) ∧
    ((serveD env sw w req).gh.length ≤ 1) ∧
    ((serveD env sw w req).success = some true →
      (serveD env sw w req).rows.all (fun row => row.status == "completed") = true ∧
      (serveD env sw w req).rows.length = 1) := by
  simp only [serveD, serveDRest]
  repeat' split
  all_goals simp [catchWithLog, preflight, GitHubCall.isRepoPathGet, GitHubCall.isMutating]

/-- Witness for C10: a concrete successful invocation of the part_002
handler, whose whole GitHub trace is the one metadata GET and whose single
row says completed. -/
theorem serveD_issues_only_metadata_get_witness :
    (serveD envOk swOk ghWorldOk reqPull).success = some true ∧
    (((serveD envOk swOk ghWorldOk reqPull).gh.all (fun call => call.isRepoPathGet) = true) ∧
     ((serveD envOk swOk ghWorldOk reqPull).gh.all (fun call => !call.isMutating) = true) ∧
     ((serveD envOk swOk ghWorldOk reqPull).gh.length ≤ 1) ∧
     ((serveD envOk swOk ghWorldOk reqPull).success = some true →
       (serveD envOk swOk ghWorldOk reqPull).rows.all
         (fun row => row.status == "completed") = true ∧
       (serveD envOk swOk ghWorldOk reqPull).rows.length = 1)) :=
  ⟨by decide, serveD_issues_only_metadata_get envOk swOk ghWorldOk reqPull⟩

theorem performGitSyncA_auth (w : GitHubWorld) (operation customUrl githubToken : String) :
    ∀ call ∈ (performGitSyncA w operation customUrl githubToken).2,
      call.auth = "token " ++ githubToken := by
  simp only [performGitSyncA]
  repeat' split
  all_goals simp [GitHubCall.auth]

theorem performGitSyncA_auth_pair (w : GitHubWorld) (operation customUrl githubToken : String)
    (r : Except String Unit) (t : List GitHubCall)
    (heq : performGitSyncA w operation customUrl githubToken = (r, t)) :
    ∀ call ∈ t, call.auth = "token " ++ githubToken := by
  have h := performGitSyncA_auth w operation customUrl githubToken
  rw [heq] at h
  exact h

theorem serveARest_gh_user_independent (env : Env) (sw : SupabaseWorld) (w : GitHubWorld)
    (u1 u2 : String) (b : Option ReqBody) :
    (serveARest env sw w u1 b).gh = (serveARest env sw w u2 b).gh := by
  simp only [serveARest]
  repeat' split
  all_goals rfl

theorem serveDRest_gh_user_independent (env : Env) (sw : SupabaseWorld) (w : GitHubWorld)
    (u1 u2 : String) (b : Option ReqBody) :
    (serveDRest env sw w u1 b).gh = (serveDRest env sw w u2 b).gh := by
  simp only [serveDRest]
  repeat' split
  all_goals rfl

theorem serveARest_auth (env : Env) (sw : SupabaseWorld) (w : GitHubWorld)
    (u : String) (b : Option ReqBody) (pat : String) (hpat : env.githubPat = some pat) :
    ∀ call ∈ (serveARest env sw w u b).gh, call.auth = "token " ++ pat := by
  simp only [serveARest, hpat]
  repeat' split
  all_goals intro call hc
  all_goals simp only [catchWithLog] at hc ⊢
  all_goals try (simp at hc)
  all_goals try (rcases hc with hc | hc)
  all_goals try (subst hc)
  all_goals try rfl
  all_goals exact performGitSyncA_auth_pair w _ _ pat _ _ (by assumption) call hc

theorem serveDRest_auth (env : Env) (sw : SupabaseWorld) (w : GitHubWorld)
    (u : String) (b : Option ReqBody) (pat : String) (hpat : env.githubPat = some pat) :
    ∀ call ∈ (serveDRest env sw w u b).gh, call.auth = "token " ++ pat := by
  simp only [serveDRest, hpat]
  repeat' split
  all_goals simp [catchWithLog, GitHubCall.auth]

theorem getDefaultBranch_auth_pair (w : GitHubWorld) (owner repo token : String)
    (res : Except String String) (t : List GitHubCall)
    (heq : getDefaultBranch w owner repo token = (res, t)) :
    ∀ call ∈ t, call.auth = "Bearer " ++ token := by
  have h : ∀ call ∈ (getDefaultBranch w owner repo token).2, call.auth = "Bearer " ++ token := by
    simp only [getDefaultBranch]
    split <;> simp [GitHubCall.auth]
  rw [heq] at h
  exact h

theorem getGitHubReference_auth_pair (w : GitHubWorld) (owner repo ref token : String)
    (res : Except String (Option RefData)) (t : List GitHubCall)
    (heq : getGitHubReference w owner repo ref token = (res, t)) :
    ∀ call ∈ t, call.auth = "Bearer " ++ token := by
  have h : ∀ call ∈ (getGitHubReference w owner repo ref token).2,
      call.auth = "Bearer " ++ token := by
    simp only [getGitHubReference]
    repeat' split
    all_goals simp [GitHubCall.auth]
  rw [heq] at h
  exact h

theorem createGitHubReference_auth_pair (w : GitHubWorld) (owner repo ref sha token : String)
    (res : Except String RefData) (t : List GitHubCall)
    (heq : createGitHubReference w owner repo ref sha token = (res, t)) :
    ∀ call ∈ t, call.auth = "Bearer " ++ token := by
  have h : ∀ call ∈ (createGitHubReference w owner repo ref sha token).2,
      call.auth = "Bearer " ++ token := by
    simp only [createGitHubReference]
    split <;> simp [GitHubCall.auth]
  rw [heq] at h
  exact h

theorem updateGitHubReference_auth_pair (w : GitHubWorld) (owner repo ref sha token : String)
    (res : Except String RefData) (t : List GitHubCall)
    (heq : updateGitHubReference w owner repo ref sha token = (res, t)) :
    ∀ call ∈ t, call.auth = "Bearer " ++ token := by
  have h : ∀ call ∈ (updateGitHubReference w owner repo ref sha token).2,
      call.auth = "Bearer " ++ token := by
    simp only [updateGitHubReference]
    repeat' split
    all_goals intro call hc
    all_goals try (rcases List.mem_append.mp hc with hc | hc)
    all_goals try (obtain rfl := List.mem_singleton.mp hc)
    all_goals first
      | rfl
      | exact getGitHubReference_auth_pair w _ _ _ token _ _ (by assumption) call hc
      | exact createGitHubReference_auth_pair w _ _ _ _ token _ _ (by assumption) call hc
      | exact createGitHubReference_auth_pair w _ _ _ _ token _ _ rfl call hc
  rw [heq] at h
  exact h

theorem verifyRepositoryAccess_auth_pair (w : GitHubWorld) (owner repo token : String)
    (res : Except String Unit) (t : List GitHubCall)
    (heq : verifyRepositoryAccess w owner repo token = (res, t)) :
    ∀ call ∈ t, call.auth = "Bearer " ++ token := by
  have h : ∀ call ∈ (verifyRepositoryAccess w owner repo token).2,
      call.auth = "Bearer " ++ token := by
    simp only [verifyRepositoryAccess]
    split <;> simp [GitHubCall.auth]
  rw [heq] at h
  exact h

theorem syncCore_auth (w : GitHubWorld) (operation : String) (customRepo masterRepo : RepoId)
    (githubToken : String) :
    ∀ call ∈ (syncCore w operation customRepo masterRepo githubToken).2,
      call.auth = "Bearer " ++ githubToken := by
  simp only [syncCore]
  repeat' split
  all_goals intro call hc
  all_goals try (rcases List.mem_append.mp hc with hc | hc)
  all_goals try (rcases List.mem_append.mp hc with hc | hc)
  all_goals try (rcases List.mem_append.mp hc with hc | hc)
  all_goals first
    | exact getDefaultBranch_auth_pair w _ _ githubToken _ _ (by assumption) call hc
    | exact getGitHubReference_auth_pair w _ _ _ githubToken _ _ (by assumption) call hc
    | exact updateGitHubReference_auth_pair w _ _ _ _ githubToken _ _ (by assumption) call hc

theorem performGitSync_auth_pair (w : GitHubWorld) (operation customUrl masterUrl tok : String)
    (res : Except String Unit) (t : List GitHubCall)
    (heq : performGitSync w operation customUrl masterUrl tok = (res, t)) :
    ∀ call ∈ t, call.auth = "Bearer " ++ tok := by
  have h : ∀ call ∈ (performGitSync w operation customUrl masterUrl tok).2,
      call.auth = "Bearer " ++ tok := by
    simp only [performGitSync]
    repeat' split
    all_goals first
      | exact syncCore_auth w operation _ _ tok
      | simp
  rw [heq] at h
  exact h

theorem performGitSyncB_auth_pair (w : GitHubWorld) (operation customUrl masterUrl tok : String)
    (res : Except String Unit) (t : List GitHubCall)
    (heq : performGitSyncB w operation customUrl masterUrl tok = (res, t)) :
    ∀ call ∈ t, call.auth = "Bearer " ++ tok := by
  have h : ∀ call ∈ (performGitSyncB w operation customUrl masterUrl tok).2,
      call.auth = "Bearer " ++ tok := by
    simp only [performGitSyncB]
    repeat' split
    all_goals first
      | exact syncCore_auth w operation _ _ tok
      | simp
  rw [heq] at h
  exact h

theorem serveC_auth (env : Env) (sw : SupabaseWorld) (w : GitHubWorld) (req : Request)
    (pat : String) (hpat : env.githubPat = some pat) :
    ∀ call ∈ (serveC env sw w req).gh, call.auth = "Bearer " ++ pat := by
  simp only [serveC, hpat]
  repeat' split
  all_goals intro call hc
  all_goals simp only [catchNoLog, preflight] at hc
  all_goals try (exact absurd hc (List.not_mem_nil call))
  all_goals exact performGitSync_auth_pair w _ _ _ pat _ _ (by assumption) call hc

theorem serveB_auth (env : Env) (sw : SupabaseWorld) (w : GitHubWorld) (req : Request)
    (pat : String) (hpat : env.githubPat = some pat) :
    ∀ call ∈ (serveB env sw w req).gh, call.auth = "Bearer " ++ pat := by
  simp only [serveB, hpat]
  repeat' split
  all_goals intro call hc
  all_goals simp only [catchNoLog, preflight] at hc
  all_goals try (exact absurd hc (List.not_mem_nil call))
  all_goals try (rcases List.mem_append.mp hc with hc | hc)
  all_goals first
    | exact verifyRepositoryAccess_auth_pair w _ _ pat _ _ (by assumption) call hc
    | exact performGitSyncB_auth_pair w _ _ _ pat _ _ (by assumption) call hc

theorem serveC_gh_ignores_jwt (env : Env) (sw : SupabaseWorld) (w : GitHubWorld)
    (r1 r2 : Request) (a1 a2 u1 u2 : String)
    (hmeq : r1.method = r2.method) (hbeq : r1.body = r2.body)
    (h1 : r1.authHeader = some a1) (h2 : r2.authHeader = some a2)
    (ha1 : (a1 == "") = false) (ha2 : (a2 == "") = false)
    (hu1 : sw.getUser (stripFirst a1 "Bearer ") = some u1)
    (hu2 : sw.getUser (stripFirst a2 "Bearer ") = some u2) :
    (serveC env sw w r1).gh = (serveC env sw w r2).gh := by
  cases hopt : r1.method == "OPTIONS" with
  | true =>
    have hopt2 : (r2.method == "OPTIONS") = true := by rw [← hmeq]; exact hopt
    simp [serveC, hopt, hopt2]
  | false =>
    have hopt2 : (r2.method == "OPTIONS") = false := by rw [← hmeq]; exact hopt
    cases hgp : env.githubPat with
    | none => simp [serveC, hopt, hopt2, h1, h2, ha1, ha2, hgp, catchNoLog]
    | some pat =>
      cases hpz : pat == "" with
      | true => simp [serveC, hopt, hopt2, h1, h2, ha1, ha2, hgp, hpz, catchNoLog]
      | false =>
        cases hb : r1.body with
        | none =>
          have hb2 : r2.body = none := by rw [← hbeq]; exact hb
          simp [serveC, hopt, hopt2, h1, h2, ha1, ha2, hgp, hpz, hb, hb2, catchNoLog]
        | some b =>
          have hb2 : r2.body = some b := by rw [← hbeq]; exact hb
          simp only [serveC, hopt, hopt2, h1, h2, ha1, ha2, hgp, hpz, hb, hb2, hu1, hu2,
            Bool.false_eq_true, if_false]
          repeat' split
          all_goals rfl

theorem serveB_gh_ignores_jwt (env : Env) (sw : SupabaseWorld) (w : GitHubWorld)
    (r1 r2 : Request) (a1 a2 u1 u2 : String)
    (hmeq : r1.method = r2.method) (hbeq : r1.body = r2.body)
    (h1 : r1.authHeader = some a1) (h2 : r2.authHeader = some a2)
    (ha1 : (a1 == "") = false) (ha2 : (a2 == "") = false)
    (hu1 : sw.getUser (stripFirst a1 "Bearer ") = some u1)
    (hu2 : sw.getUser (stripFirst a2 "Bearer ") = some u2) :
    (serveB env sw w r1).gh = (serveB env sw w r2).gh := by
  cases hopt : r1.method == "OPTIONS" with
  | true =>
    have hopt2 : (r2.method == "OPTIONS") = true := by rw [← hmeq]; exact hopt
    simp [serveB, hopt, hopt2]
  | false =>
    have hopt2 : (r2.method == "OPTIONS") = false := by rw [← hmeq]; exact hopt
    cases hgp : env.githubPat with
    | none => simp [serveB, hopt, hopt2, h1, h2, ha1, ha2, hgp, catchNoLog]
    | some pat =>
      cases hpz : pat == "" with
      | true => simp [serveB, hopt, hopt2, h1, h2, ha1, ha2, hgp, hpz, catchNoLog]
      | false =>
        cases hb : r1.body with
        | none =>
          have hb2 : r2.body = none := by rw [← hbeq]; exact hb
          simp [serveB, hopt, hopt2, h1, h2, ha1, ha2, hgp, hpz, hb, hb2, catchNoLog]
        | some b =>
          have hb2 : r2.body = some b := by rw [← hbeq]; exact hb
          simp only [serveB, hopt, hopt2, h1, h2, ha1, ha2, hgp, hpz, hb, hb2, hu1, hu2,
            Bool.false_eq_true, if_false]
          repeat' split
          all_goals rfl

/-- C8: in all four handler variants, every request issued to the GitHub
API authenticates solely with the environment-sourced GitHub token (the
token scheme in the first index.ts handler and part_002, the Bearer scheme
in part_001 and the second index.ts handler), and two requests differing
only in their (valid) caller bearer JWT produce identical GitHub call
traces, so the caller's JWT never reaches the GitHub API. -/
theorem github_calls_use_env_token_and_ignore_jwt
    (env : Env) (sw : SupabaseWorld) (w : GitHubWorld) (r1 r2 : Request)
    (pat a1 a2 u1 u2 : String)
    (hpat : env.githubPat = some pat)
    (hmeq : r1.method = r2.method) (hbeq : r1.body = r2.body)
    (h1 : r1.authHeader = some a1) (h2 : r2.authHeader = some a2)
    (ha1 : a1 ≠ "") (ha2 : a2 ≠ "")
    (hu1 : sw.getUser (stripFirst a1 "Bearer ") = some u1)
    (hu2 : sw.getUser (stripFirst a2 "Bearer ") = some u2) :
    ((serveA env sw w r1).gh = (serveA env sw w r2).gh ∧
      ∀ call ∈ (serveA env sw w r1).gh, call.auth = "token " ++ pat) ∧
    ((serveD env sw w r1).gh = (serveD env sw w r2).gh ∧
      ∀ call ∈ (serveD env sw w r1).gh, call.auth = "token " ++ pat) ∧
    ((serveC env sw w r1).gh = (serveC env sw w r2).gh ∧
      ∀ call ∈ (serveC env sw w r1).gh, call.auth = "Bearer " ++ pat) ∧
    ((serveB env sw w r1).gh = (serveB env sw w r2).gh ∧
      ∀ call ∈ (serveB env sw w r1).gh, call.auth = "Bearer " ++ pat) := by
  have ha1' : (a1 == "") = false := by
    cases hbe : a1 == ""
    · rfl
    · exact absurd (eq_of_beq hbe) ha1
  have ha2' : (a2 == "") = false := by
    cases hbe : a2 == ""
    · rfl
    · exact absurd (eq_of_beq hbe) ha2
  refine ⟨?_, ?_, ?_, ?_⟩
  · constructor
    · cases hopt : r1.method == "OPTIONS" with
      | true =>
        have hopt2 : (r2.method == "OPTIONS") = true := by rw [← hmeq]; exact hopt
        simp [serveA, hopt, hopt2]
      | false =>
        have hopt2 : (r2.method == "OPTIONS") = false := by rw [← hmeq]; exact hopt
        cases hcfg : optTruthy env.supabaseUrl && optTruthy env.supabaseServiceKey with
        | false => simp [serveA, hopt, hopt2, hcfg, catchWithLog]
        | true =>
          have e1 : serveA env sw w r1 = serveARest env sw w u1 r1.body := by
            simp [serveA, hopt, hcfg, h1, ha1', hu1]
          have e2 : serveA env sw w r2 = serveARest env sw w u2 r2.body := by
            simp [serveA, hopt2, hcfg, h2, ha2', hu2]
          rw [e1, e2, hbeq]
          exact serveARest_gh_user_independent env sw w u1 u2 r2.body
    · intro call hc
      cases hopt : r1.method == "OPTIONS" with
      | true => rw [serveA, if_pos hopt] at hc; exact absurd hc (by simp [preflight])
      | false =>
        cases hcfg : optTruthy env.supabaseUrl && optTruthy env.supabaseServiceKey with
        | false =>
          rw [show serveA env sw w r1 = catchWithLog env sw [] "Server configuration error"
            from by simp [serveA, hopt, hcfg]] at hc
          exact absurd hc (by simp [catchWithLog])
        | true =>
          rw [show serveA env sw w r1 = serveARest env sw w u1 r1.body
            from by simp [serveA, hopt, hcfg, h1, ha1', hu1]] at hc
          exact serveARest_auth env sw w u1 r1.body pat hpat call hc
  · constructor
    · cases hopt : r1.method == "OPTIONS" with
      | true =>
        have hopt2 : (r2.method == "OPTIONS") = true := by rw [← hmeq]; exact hopt
        simp [serveD, hopt, hopt2]
      | false =>
        have hopt2 : (r2.method == "OPTIONS") = false := by rw [← hmeq]; exact hopt
        cases hcfg : optTruthy env.supabaseUrl && optTruthy env.supabaseServiceKey with
        | false => simp [serveD, hopt, hopt2, hcfg, catchWithLog]
        | true =>
          have e1 : serveD env sw w r1 = serveDRest env sw w u1 r1.body := by
            simp [serveD, hopt, hcfg, h1, ha1', hu1]
          have e2 : serveD env sw w r2 = serveDRest env sw w u2 r2.body := by
            simp [serveD, hopt2, hcfg, h2, ha2', hu2]
          rw [e1, e2, hbeq]
          exact serveDRest_gh_user_independent env sw w u1 u2 r2.body
    · intro call hc
      cases hopt : r1.method == "OPTIONS" with
      | true => rw [serveD, if_pos hopt] at hc; exact absurd hc (by simp [preflight])
      | false =>
        cases hcfg : optTruthy env.supabaseUrl && optTruthy env.supabaseServiceKey with
        | false =>
          rw [show serveD env sw w r1 = catchWithLog env sw [] "Server configuration error"
            from by simp [serveD, hopt, hcfg]] at hc
          exact absurd hc (by simp [catchWithLog])
        | true =>
          rw [show serveD env sw w r1 = serveDRest env sw w u1 r1.body
            from by simp [serveD, hopt, hcfg, h1, ha1', hu1]] at hc
          exact serveDRest_auth env sw w u1 r1.body pat hpat call hc
  · exact ⟨serveC_gh_ignores_jwt env sw w r1 r2 a1 a2 u1 u2 hmeq hbeq h1 h2 ha1' ha2' hu1 hu2,
      serveC_auth env sw w r1 pat hpat⟩
  · exact ⟨serveB_gh_ignores_jwt env sw w r1 r2 a1 a2 u1 u2 hmeq hbeq h1 h2 ha1' ha2' hu1 hu2,
      serveB_auth env sw w r1 pat hpat⟩

/-- Witness for C8: two concrete pull requests differing only in their
bearer token yield identical GitHub traces in all four handlers, every
call of which authenticates with the environment token. -/
theorem github_calls_use_env_token_and_ignore_jwt_witness :
    envOk.githubPat = some "PAT" ∧
    reqPull.method = reqPullOtherJwt.method ∧ reqPull.body = reqPullOtherJwt.body ∧
    reqPull.authHeader = some "Bearer jwt-a" ∧
    reqPullOtherJwt.authHeader = some "Bearer jwt-b" ∧
    (((serveA envOk swOk ghWorldOk reqPull).gh = (serveA envOk swOk ghWorldOk reqPullOtherJwt).gh ∧
      ∀ call ∈ (serveA envOk swOk ghWorldOk reqPull).gh, call.auth = "token " ++ "PAT") ∧
     ((serveD envOk swOk ghWorldOk reqPull).gh = (serveD envOk swOk ghWorldOk reqPullOtherJwt).gh ∧
      ∀ call ∈ (serveD envOk swOk ghWorldOk reqPull).gh, call.auth = "token " ++ "PAT") ∧
     ((serveC envOk swOk ghWorldOk reqPull).gh = (serveC envOk swOk ghWorldOk reqPullOtherJwt).gh ∧
      ∀ call ∈ (serveC envOk swOk ghWorldOk reqPull).gh, call.auth = "Bearer " ++ "PAT") ∧
     ((serveB envOk swOk ghWorldOk reqPull).gh = (serveB envOk swOk ghWorldOk reqPullOtherJwt).gh ∧
      ∀ call ∈ (serveB envOk swOk ghWorldOk reqPull).gh, call.auth = "Bearer " ++ "PAT")) :=
  ⟨rfl, rfl, rfl, rfl, rfl,
   github_calls_use_env_token_and_ignore_jwt envOk swOk ghWorldOk reqPull reqPullOtherJwt
     "PAT" "Bearer jwt-a" "Bearer jwt-b" "user-1" "user-1" rfl rfl rfl rfl rfl
     (by decide) (by decide) rfl rfl⟩

theorem matchDollar_of_validate (url : String) (p : RepoId)
    (h : validateGitHubUrl url = some p) : matchDollar url = some p := by
  unfold validateGitHubUrl at h
  unfold matchDollar
  cases hh : urlHostname url with
  | none => simp [hh] at h
  | some hst =>
    simp only [hh] at h
    cases hb : hst == "github.com" with
    | false => simp [hb] at h
    | true =>
      simp only [hb, if_true] at h
      cases hscan : scanGithub url.data with
      | none => simp [hscan] at h
      | some pr =>
        simp only [hscan] at h
        simp only [hscan]
        cases pr with
        | mk o r => simpa using h

/-- C9: in the two masterUrl-from-body handlers, a request whose body has
no masterUrl but passes all remaining validation performs no GitHub ref
read or write at all and is still answered success true: the part_001
handler issues no GitHub call whatsoever, and the second index.ts handler
issues only the repository-metadata access check. -/
theorem missing_master_url_is_silent_success
    (env : Env) (sw : SupabaseWorld) (w : GitHubWorld) (req : Request) (b : ReqBody)
    (a pat u customUrl : String) (crep : RepoId)
    (hmethod : req.method ≠ "OPTIONS")
    (hauth : req.authHeader = some a) (hane : a ≠ "")
    (hpat : env.githubPat = some pat) (hpatne : pat ≠ "")
    (hbody : req.body = some b)
    (hmaster : b.masterUrl = none)
    (hcu : b.customUrl = some customUrl) (hcune : customUrl ≠ "")
    (hop : b.operation ≠ some "push")
    (hu : sw.getUser (stripFirst a "Bearer ") = some u)
    (hins : sw.insertOk = true)
    (hvalid : validateGitHubUrl customUrl = some crep)
    (hrepo : httpOk (w.repoResp crep.owner crep.repo).status = true) :
    ((serveC env sw w req).success = some true ∧ (serveC env sw w req).gh = []) ∧
    ((serveB env sw w req).success = some true ∧
      (serveB env sw w req).gh.all (fun call => !call.isRefCall) = true) := by
  have hm' : (req.method == "OPTIONS") = false := by
    cases hbe : req.method == "OPTIONS"
    · rfl
    · exact absurd (eq_of_beq hbe) hmethod
  have hane' : (a == "") = false := by
    cases hbe : a == ""
    · rfl
    · exact absurd (eq_of_beq hbe) hane
  have hpatne' : (pat == "") = false := by
    cases hbe : pat == ""
    · rfl
    · exact absurd (eq_of_beq hbe) hpatne
  have hcune' : (customUrl == "") = false := by
    cases hbe : customUrl == ""
    · rfl
    · exact absurd (eq_of_beq hbe) hcune
  have hpush : (b.operation.getD "" == "push") = false := by
    cases hbo : b.operation with
    | none => rfl
    | some s =>
      cases hbe : s == "push"
      · simp [hbo, hbe]
      · exact absurd (by rw [hbo, eq_of_beq hbe]) hop
  have hmd : matchDollar customUrl = some crep := matchDollar_of_validate _ _ hvalid
  constructor
  · constructor <;>
      simp [serveC, hm', hauth, hane', hpat, hpatne', hbody, hu, hcu, hcune', hpush, hmaster,
        hvalid, hins, optTruthy]
  · constructor <;>
      simp [serveB, hm', hauth, hane', hpat, hpatne', hbody, hu, hcu, hmd,
        verifyRepositoryAccess, hrepo, hins, hmaster, optTruthy, GitHubCall.isRefCall]

/-- Witness for C9: the concrete pull request without a masterUrl is a
silent success in both handlers, with an empty trace in part_001 and only
the metadata GET in the second index.ts handler. -/
theorem missing_master_url_is_silent_success_witness :
    reqPullNoMaster.method ≠ "OPTIONS" ∧
    reqPullNoMaster.authHeader = some "Bearer jwt-a" ∧
    validateGitHubUrl "https://github.com/a/b" = some ⟨"a", "b"⟩ ∧
    (((serveC envOk swOk ghWorldOk reqPullNoMaster).success = some true ∧
      (serveC envOk swOk ghWorldOk reqPullNoMaster).gh = []) ∧
     ((serveB envOk swOk ghWorldOk reqPullNoMaster).success = some true ∧
      (serveB envOk swOk ghWorldOk reqPullNoMaster).gh.all
        (fun call => !call.isRefCall) = true)) :=
  ⟨by decide, rfl, by decide,
   missing_master_url_is_silent_success envOk swOk ghWorldOk reqPullNoMaster
     { operation := some "pull", customUrl := some "https://github.com/a/b", masterUrl := none }
     "Bearer jwt-a" "PAT" "user-1" "https://github.com/a/b" ⟨"a", "b"⟩
     (by decide) rfl (by decide) rfl (by decide) rfl rfl rfl (by decide) (by decide) rfl rfl
     (by decide) (by decide)⟩

/-- C4 counterexample: in the part_001 handler the completed row is
inserted before the sync runs and the catch inserts nothing, so a pull
whose sync fails (metadata oracle answers 500) is answered success false
while its single inserted row says completed: the row's status does not
match the outcome. -/
theorem serveC_completed_row_despite_failure :
    (serveC envOk swOk ghWorldRepo500 reqPull).success = some false ∧
    (serveC envOk swOk ghWorldRepo500 reqPull).rows.length = 1 ∧
    (serveC envOk swOk ghWorldRepo500 reqPull).rows.all
      (fun row => row.status == "completed") = true :=
  ⟨by decide, by decide, by decide⟩

/-- C4 amended: for the first index.ts handler, when the backend
configuration is present and the log writes succeed, every non-preflight
invocation inserts exactly one row whose status matches the outcome:
completed on a success response, failed on a failure response.  The
part_001 handler instead inserts its single completed row before the sync
and writes no row in its catch, so there a failed sync leaves a completed
row and earlier failures leave no row. -/
theorem serveA_one_log_row_matching_outcome
    (env : Env) (sw : SupabaseWorld) (w : GitHubWorld) (req : Request)
    (hmethod : req.method ≠ "OPTIONS")
    (hsu : optTruthy env.supabaseUrl = true) (hsk : optTruthy env.supabaseServiceKey = true)
    (hins : sw.insertOk = true) (herr : sw.errInsertOk = true) :
    ∃ row, (serveA env sw w req).rows = [row] ∧
      (((serveA env sw w req).success = some true ∧ row.status = "completed") ∨
       ((serveA env sw w req).success = some false ∧ row.status = "failed")) := by
  have hm' : (req.method == "OPTIONS") = false := by
    cases hbe : req.method == "OPTIONS"
    · rfl
    · exact absurd (eq_of_beq hbe) hmethod
  simp only [serveA, serveARest, catchWithLog, hm', hsu, hsk, hins, herr, Bool.and_true,
    Bool.true_and, Bool.and_self, if_true, Bool.false_eq_true, if_false]
  repeat' split
  all_goals first
    | exact ⟨_, rfl, Or.inl ⟨rfl, rfl⟩⟩
    | exact ⟨_, rfl, Or.inr ⟨rfl, rfl⟩⟩

/-- Witness for C4 amended: a concrete fully successful invocation of the
first index.ts handler inserts exactly one row and it says completed. -/
theorem serveA_one_log_row_matching_outcome_witness :
    reqPull.method ≠ "OPTIONS" ∧
    optTruthy envOk.supabaseUrl = true ∧ optTruthy envOk.supabaseServiceKey = true ∧
    swOk.insertOk = true ∧ swOk.errInsertOk = true ∧
    (∃ row, (serveA envOk swOk ghWorldOk reqPull).rows = [row] ∧
      (((serveA envOk swOk ghWorldOk reqPull).success = some true ∧ row.status = "completed") ∨
       ((serveA envOk swOk ghWorldOk reqPull).success = some false ∧ row.status = "failed"))) :=
  ⟨by decide, rfl, rfl, rfl, rfl,
   serveA_one_log_row_matching_outcome envOk swOk ghWorldOk reqPull (by decide) rfl rfl rfl rfl⟩

theorem all_takeWhile (p : Char → Bool) (t : List Char) : (t.takeWhile p).all p = true := by
  induction t with
  | nil => rfl
  | cons a l ih =>
    cases hpa : p a
    · simp [List.takeWhile_cons, hpa]
    · simp [List.takeWhile_cons, hpa, ih]

theorem dropWhile_head_false (p : Char → Bool) (t : List Char) (c : Char) (u : List Char)
    (h : t.dropWhile p = c :: u) : p c = false := by
  induction t with
  | nil => simp [List.dropWhile] at h
  | cons a l ih =>
    rw [List.dropWhile_cons] at h
    cases hpa : p a
    · rw [hpa] at h
      simp at h
      rw [← h.1]
      exact hpa
    · rw [hpa] at h
      simp at h
      exact ih h

theorem isEmpty_false_iff (l : List Char) : l.isEmpty = false ↔ l ≠ [] := by
  cases l <;> simp

theorem matchTail_plain_list (o r : List Char) (ho2 : o.all (· != '/') = true)
    (hr2 : r.all (· != '.') = true) (ho1 : o ≠ []) (hr1 : r ≠ []) :
    matchTail (o ++ '/' :: r) = some (⟨o⟩, ⟨r⟩) :=
  matchTail_plain ⟨o⟩ ⟨r⟩ ho2 hr2 ho1 hr1

theorem matchTail_git_list (o r : List Char) (ho2 : o.all (· != '/') = true)
    (hr2 : r.all (· != '.') = true) (ho1 : o ≠ []) (hr1 : r ≠ []) :
    matchTail (o ++ '/' :: (r ++ gitSuffix)) = some (⟨o⟩, ⟨r⟩) :=
  matchTail_git ⟨o⟩ ⟨r⟩ ho2 hr2 ho1 hr1

theorem matchTail_isSome_iff (t : List Char) :
    (matchTail t).isSome = true ↔
      ∃ o r : List Char, o ≠ [] ∧ o.all (· != '/') = true ∧ r ≠ [] ∧
        r.all (· != '.') = true ∧
        (t = o ++ '/' :: r ∨ t = o ++ '/' :: (r ++ gitSuffix)) := by
  constructor
  · intro h
    simp only [matchTail] at h
    cases hd : t.dropWhile (· != '/') with
    | nil => simp [hd] at h
    | cons c u =>
      simp only [hd] at h
      have hc : c = '/' := by
        have := dropWhile_head_false (· != '/') t c u hd
        simpa using this
      have ht : t = t.takeWhile (· != '/') ++ (c :: u) := by
        conv_lhs => rw [← List.takeWhile_append_dropWhile (· != '/') t]
        rw [hd]
      cases ho : (t.takeWhile (· != '/')).isEmpty with
      | true => simp [ho] at h
      | false =>
        cases hre : (u.takeWhile (· != '.')).isEmpty with
        | true => simp [ho, hre] at h
        | false =>
          cases hrest : (u.dropWhile (· != '.')).isEmpty with
          | true =>
            have hrest' : u.dropWhile (· != '.') = [] := by
              cases hx : u.dropWhile (· != '.') with
              | nil => rfl
              | cons y ys => rw [hx] at hrest; simp at hrest
            have hru : u.takeWhile (· != '.') = u := by
              have h0 := List.takeWhile_append_dropWhile (· != '.') u
              rw [hrest', List.append_nil] at h0
              exact h0
            refine ⟨t.takeWhile (· != '/'), u.takeWhile (· != '.'),
              (isEmpty_false_iff _).mp ho, all_takeWhile _ _,
              (isEmpty_false_iff _).mp hre, all_takeWhile _ _, Or.inl ?_⟩
            calc t = t.takeWhile (· != '/') ++ (c :: u) := ht
              _ = t.takeWhile (· != '/') ++ ('/' :: u) := by rw [hc]
              _ = t.takeWhile (· != '/') ++ ('/' :: u.takeWhile (· != '.')) := by rw [hru]
          | false =>
            cases hbq : u.dropWhile (· != '.') == gitSuffix with
            | false => simp [ho, hre, hrest, hbq] at h
            | true =>
              have hgit : u.dropWhile (· != '.') = gitSuffix := eq_of_beq hbq
              have hru : u = u.takeWhile (· != '.') ++ gitSuffix := by
                have h0 := List.takeWhile_append_dropWhile (· != '.') u
                rw [hgit] at h0
                exact h0.symm
              refine ⟨t.takeWhile (· != '/'), u.takeWhile (· != '.'),
                (isEmpty_false_iff _).mp ho, all_takeWhile _ _,
                (isEmpty_false_iff _).mp hre, all_takeWhile _ _, Or.inr ?_⟩
              calc t = t.takeWhile (· != '/') ++ (c :: u) := ht
                _ = t.takeWhile (· != '/') ++ ('/' :: u) := by rw [hc]
                _ = t.takeWhile (· != '/') ++
                    ('/' :: (u.takeWhile (· != '.') ++ gitSuffix)) := by
                    conv_lhs => rw [hru]
  · rintro ⟨o, r, ho1, ho2, hr1, hr2, ht | ht⟩ <;> subst ht
    · rw [matchTail_plain_list o r ho2 hr2 ho1 hr1]
      rfl
    · rw [matchTail_git_list o r ho2 hr2 ho1 hr1]
      rfl

theorem prefix_exists (l s : List Char) (h : l.isPrefixOf s = true) : ∃ t, s = l ++ t := by
  induction l generalizing s with
  | nil => exact ⟨s, rfl⟩
  | cons a l ih =>
    cases s with
    | nil => simp [List.isPrefixOf] at h
    | cons b s' =>
      simp only [List.isPrefixOf, Bool.and_eq_true] at h
      obtain ⟨t, ht⟩ := ih s' h.2
      have hab : a = b := eq_of_beq h.1
      exact ⟨t, by rw [ht, hab, List.cons_append]⟩

theorem scanFor_isSome_iff (f : List Char → Option (String × String)) (s : List Char) :
    (scanFor f s).isSome = true ↔
      ∃ pre t : List Char, s = pre ++ (ghLit ++ t) ∧ (f t).isSome = true := by
  induction s with
  | nil =>
    constructor
    · intro h
      simp [scanFor] at h
    · rintro ⟨pre, t, hsplit, hf⟩
      cases pre <;> simp [ghLit] at hsplit
  | cons c rest ih =>
    constructor
    · intro h
      cases hpre : ghLit.isPrefixOf (c :: rest) with
      | false =>
        rw [scanFor_cons_ne f c rest hpre] at h
        obtain ⟨pre, t, hsplit, hf⟩ := ih.mp h
        exact ⟨c :: pre, t, by rw [List.cons_append, hsplit], hf⟩
      | true =>
        obtain ⟨t0, ht0⟩ := prefix_exists ghLit (c :: rest) hpre
        have hdrop : (c :: rest).drop ghLit.length = t0 := by
          rw [ht0]
          exact List.drop_left ghLit t0
        cases hf0 : f t0 with
        | some res => exact ⟨[], t0, by rw [List.nil_append, ht0], by rw [hf0]; rfl⟩
        | none =>
          have hred : scanFor f (c :: rest) = scanFor f rest := by
            simp [scanFor, hpre, hdrop, hf0]
          rw [hred] at h
          obtain ⟨pre, t, hsplit, hf⟩ := ih.mp h
          exact ⟨c :: pre, t, by rw [List.cons_append, hsplit], hf⟩
    · rintro ⟨pre, t, hsplit, hf⟩
      cases pre with
      | nil =>
        rw [List.nil_append] at hsplit
        have hpre : ghLit.isPrefixOf (c :: rest) = true := by
          rw [hsplit]
          exact prefix_of_append ghLit t
        have hdrop : (c :: rest).drop ghLit.length = t := by
          rw [hsplit]
          exact List.drop_left ghLit t
        cases hf0 : f t with
        | none => rw [hf0] at hf; simp at hf
        | some res => simp [scanFor, hpre, hdrop, hf0]
      | cons p pre' =>
        rw [List.cons_append] at hsplit
        have hc : c = p := by injection hsplit
        have hrest' : rest = pre' ++ (ghLit ++ t) := by injection hsplit with h1 h2
        have hsome : (scanFor f rest).isSome = true := ih.mpr ⟨pre', t, hrest', hf⟩
        cases hpre : ghLit.isPrefixOf (c :: rest) with
        | false =>
          rw [scanFor_cons_ne f c rest hpre]
          exact hsome
        | true =>
          obtain ⟨t0, ht0⟩ := prefix_exists ghLit (c :: rest) hpre
          have hdrop : (c :: rest).drop ghLit.length = t0 := by
            rw [ht0]
            exact List.drop_left ghLit t0
          cases hf0 : f t0 with
          | some res => simp [scanFor, hpre, hdrop, hf0]
          | none =>
            have hred : scanFor f (c :: rest) = scanFor f rest := by
              simp [scanFor, hpre, hdrop, hf0]
            rw [hred]
            exact hsome

theorem validateGitHubUrl_isSome_iff (url : String)
    (hhost : urlHostname url = some "github.com") :
    (validateGitHubUrl url).isSome = true ↔
      ∃ pre o r : List Char, o ≠ [] ∧ o.all (· != '/') = true ∧ r ≠ [] ∧
        r.all (· != '.') = true ∧
        (url.data = pre ++ (ghLit ++ (o ++ '/' :: r)) ∨
         url.data = pre ++ (ghLit ++ (o ++ '/' :: (r ++ gitSuffix)))) := by
  have hval : (validateGitHubUrl url).isSome = (scanGithub url.data).isSome := by
    cases hscan : scanGithub url.data with
    | none => simp [validateGitHubUrl, hhost, hscan]
    | some pr =>
      cases pr with
      | mk o r => simp [validateGitHubUrl, hhost, hscan]
  rw [hval]
  rw [show scanGithub url.data = scanFor matchTail url.data from rfl]
  rw [scanFor_isSome_iff matchTail url.data]
  constructor
  · rintro ⟨pre, t, hsplit, hmt⟩
    obtain ⟨o, r, ho1, ho2, hr1, hr2, hsh⟩ := (matchTail_isSome_iff t).mp hmt
    refine ⟨pre, o, r, ho1, ho2, hr1, hr2, ?_⟩
    rcases hsh with h | h
    · exact Or.inl (by rw [hsplit, h])
    · exact Or.inr (by rw [hsplit, h])
  · rintro ⟨pre, o, r, ho1, ho2, hr1, hr2, hsh⟩
    rcases hsh with h | h
    · exact ⟨pre, o ++ '/' :: r, h,
        (matchTail_isSome_iff _).mpr ⟨o, r, ho1, ho2, hr1, hr2, Or.inl rfl⟩⟩
    · exact ⟨pre, o ++ '/' :: (r ++ gitSuffix), h,
        (matchTail_isSome_iff _).mpr ⟨o, r, ho1, ho2, hr1, hr2, Or.inr rfl⟩⟩

/-- C6 amended: validateGitHubUrl accepts a URL exactly when its host is
github.com and the URL contains an occurrence of github.com/ followed by a
nonempty slash-free owner, a slash, and a nonempty dot-free remainder
running to the end of the URL, optionally ending in .git.  The remainder
may contain slashes (so multi-segment paths are accepted with the extra
segments folded into repo), a repo segment with any other dot is rejected,
the accepting occurrence need not be the first one in the URL, for URLs of
the canonical https shape the returned pair is exactly the owner and that
remainder, and every URL whose host is not github.com is rejected. -/
theorem validateGitHubUrl_amended_characterization :
    (∀ url : String, urlHostname url ≠ some "github.com" → validateGitHubUrl url = none) ∧
    (∀ url : String, urlHostname url = some "github.com" →
      ((validateGitHubUrl url).isSome = true ↔
        ∃ pre o r : List Char, o ≠ [] ∧ o.all (· != '/') = true ∧ r ≠ [] ∧
          r.all (· != '.') = true ∧
          (url.data = pre ++ (ghLit ++ (o ++ '/' :: r)) ∨
           url.data = pre ++ (ghLit ++ (o ++ '/' :: (r ++ gitSuffix)))))) ∧
    (∀ o r : String, o ≠ "" → o.data.all (· != '/') = true → r ≠ "" →
      r.data.all (· != '.') = true →
      validateGitHubUrl ("https://github.com/" ++ o ++ "/" ++ r) = some ⟨o, r⟩ ∧
      validateGitHubUrl ("https://github.com/" ++ o ++ "/" ++ r ++ ".git") = some ⟨o, r⟩) ∧
    validateGitHubUrl "https://github.com/a/b.c" = none ∧
    validateGitHubUrl "https://github.com/x.y/github.com/a/b" = some ⟨"a", "b"⟩ := by
  refine ⟨?_, ?_, ?_, by decide, by decide⟩
  · intro url hne
    unfold validateGitHubUrl
    cases hh : urlHostname url with
    | none => rfl
    | some h =>
      have hfalse : (h == "github.com") = false := by
        cases hbe : h == "github.com"
        · rfl
        · exact absurd (by rw [hh, eq_of_beq hbe]) hne
      simp [hfalse]
  · intro url hhost
    exact validateGitHubUrl_isSome_iff url hhost
  · intro o r ho1 ho2 hr1 hr2
    have hod : o.data ≠ [] := by
      intro h
      exact ho1 (String.ext h)
    have hrd : r.data ≠ [] := by
      intro h
      exact hr1 (String.ext h)
    constructor
    · have hurl : ("https://github.com/" ++ o ++ "/" ++ r) =
          (⟨['h', 't', 't', 'p', 's', ':', '/', '/'] ++
            (ghLit ++ (o.data ++ '/' :: r.data))⟩ : String) := by
        apply String.ext
        rw [string_data_append, string_data_append, string_data_append]
        rw [show "https://github.com/".data = ['h', 't', 't', 'p', 's', ':', '/', '/'] ++ ghLit
          from rfl, show "/".data = ['/'] from rfl]
        simp [List.append_assoc]
      rw [hurl]
      exact validateGitHubUrl_at_github _ o r (matchTail_plain o r ho2 hr2 hod hrd)
    · have hurl : ("https://github.com/" ++ o ++ "/" ++ r ++ ".git") =
          (⟨['h', 't', 't', 'p', 's', ':', '/', '/'] ++
            (ghLit ++ (o.data ++ '/' :: (r.data ++ gitSuffix)))⟩ : String) := by
        apply String.ext
        rw [string_data_append, string_data_append, string_data_append, string_data_append]
        rw [show "https://github.com/".data = ['h', 't', 't', 'p', 's', ':', '/', '/'] ++ ghLit
          from rfl, show "/".data = ['/'] from rfl, show ".git".data = gitSuffix from rfl]
        simp [List.append_assoc]
      rw [hurl]
      exact validateGitHubUrl_at_github _ o r (matchTail_git o r ho2 hr2 hod hrd)

/-- Witness for C6 amended: the host-mismatch rejection at a gitlab URL,
the acceptance characterization at a concrete github URL, and the
canonical-shape family at owner a and repo b. -/
theorem validateGitHubUrl_amended_characterization_witness :
    (urlHostname "https://gitlab.com/a/b" ≠ some "github.com" ∧
      validateGitHubUrl "https://gitlab.com/a/b" = none) ∧
    (urlHostname "https://github.com/a/b" = some "github.com" ∧
      ((validateGitHubUrl "https://github.com/a/b").isSome = true ↔
        ∃ pre o r : List Char, o ≠ [] ∧ o.all (· != '/') = true ∧ r ≠ [] ∧
          r.all (· != '.') = true ∧
          (("https://github.com/a/b" : String).data = pre ++ (ghLit ++ (o ++ '/' :: r)) ∨
           ("https://github.com/a/b" : String).data =
             pre ++ (ghLit ++ (o ++ '/' :: (r ++ gitSuffix)))))) ∧
    (("a" : String) ≠ "" ∧ ("a" : String).data.all (· != '/') = true ∧
      ("b" : String) ≠ "" ∧ ("b" : String).data.all (· != '.') = true ∧
      validateGitHubUrl ("https://github.com/" ++ "a" ++ "/" ++ "b") = some ⟨"a", "b"⟩ ∧
      validateGitHubUrl ("https://github.com/" ++ "a" ++ "/" ++ "b" ++ ".git") =
        some ⟨"a", "b"⟩) :=
  ⟨⟨by decide, validateGitHubUrl_amended_characterization.1 "https://gitlab.com/a/b" (by decide)⟩,
   ⟨by decide, validateGitHubUrl_amended_characterization.2.1 "https://github.com/a/b" (by decide)⟩,
   ⟨by decide, by decide, by decide, by decide,
    (validateGitHubUrl_amended_characterization.2.2.1 "a" "b" (by decide) (by decide) (by decide)
      (by decide)).1,
    (validateGitHubUrl_amended_characterization.2.2.1 "a" "b" (by decide) (by decide) (by decide)
      (by decide)).2⟩⟩
